import Mathlib

/-!
Verification of the TotoAnalytics core against its specification.

The development shallowly embeds the Python source in Lean 4:

* `src/calculator.py` (`calculate_prize_pools`): prize-pool estimation over a
  DataFrame, modelled as a list of association-list rows of rational-valued
  cells; the per-row arithmetic is also factored through a structured record
  (`DrawRow`) whose fields mirror the `group_i_winners` / `group_i_prize`
  columns the code reads.  Numeric columns are modelled by `ℚ`.
* `src/data_utils.py` (`get_missing_query_strings`): the reconciler, including
  the base64 / UTF-8 decoding of `sppl=` tokens and the `id=` query-parameter
  extraction that the source performs.
* `src/db_utils.py` (`save_database`): the relational store with its
  check-then-delete-then-insert upsert keyed on `draw_number`.
* `src/scraper.py` (`get_available_draw_dates`, `scrape_toto_results`): the
  catalog listing and the result-page extraction pipeline, over an explicit
  document model.
-/

namespace TotoAnalytics

/-! ## Calculator (`src/calculator.py`)

A DataFrame row is an association list from column names to cells.  The
calculator only performs arithmetic on numeric cells; all other payloads
(dates, winning-number lists, query strings) are opaque to it. -/

inductive Cell where
  | num (q : ℚ)
  | obj (s : String)
deriving DecidableEq

abbrev Row := List (String × Cell)

/-- `row[c]` restricted to numeric cells; `none` models a `KeyError` or a
non-numeric operand, both of which abort `calculate_prize_pools`. -/
def getNumCell (row : Row) (c : String) : Option ℚ :=
  match List.lookup c row with
  | some (Cell.num q) => some q
  | _ => none

/-- `df.at[idx, c] = v` / column assignment: overwrite in place when the
column exists, append it otherwise. -/
def setCell (row : Row) (c : String) (v : Cell) : Row :=
  match row with
  | [] => [(c, v)]
  | (k, w) :: rest => if k = c then (c, v) :: rest else (k, w) :: setCell rest c v

/-- The fourteen numeric columns `calculate_prize_pools` reads from a row. -/
structure DrawRow where
  group_1_winners : ℚ
  group_1_prize : ℚ
  group_2_winners : ℚ
  group_2_prize : ℚ
  group_3_winners : ℚ
  group_3_prize : ℚ
  group_4_winners : ℚ
  group_4_prize : ℚ
  group_5_winners : ℚ
  group_5_prize : ℚ
  group_6_winners : ℚ
  group_6_prize : ℚ
  group_7_winners : ℚ
  group_7_prize : ℚ
deriving DecidableEq

def ORDINARY_ENTRY_PRICE : ℚ := 1
def CONTRIBUTION_RATE : ℚ := 54 / 100
def GROUP_1_ALLOCATION : ℚ := 38 / 100
def GROUP_2_ALLOCATION : ℚ := 8 / 100
def GROUP_3_ALLOCATION : ℚ := 5 / 100
def GROUP_4_ALLOCATION : ℚ := 3 / 100
def GROUP_5_ALLOCATION : ℚ := 4 / 100
def GROUP_6_ALLOCATION : ℚ := 205 / 1000
def GROUP_7_ALLOCATION : ℚ := 205 / 1000

def est_prize_pool_g2 (r : DrawRow) : Option ℚ :=
  if r.group_2_winners > 0 then some (r.group_2_prize * r.group_2_winners / GROUP_2_ALLOCATION)
  else none

def est_prize_pool_g3 (r : DrawRow) : Option ℚ :=
  if r.group_3_winners > 0 then some (r.group_3_prize * r.group_3_winners / GROUP_3_ALLOCATION)
  else none

def est_prize_pool_g4 (r : DrawRow) : Option ℚ :=
  if r.group_4_winners > 0 then some (r.group_4_prize * r.group_4_winners / GROUP_4_ALLOCATION)
  else none

def est_prize_pool_g5 (r : DrawRow) : Option ℚ :=
  if r.group_5_winners > 0 then some (r.group_5_prize * r.group_5_winners / GROUP_5_ALLOCATION)
  else none

def est_prize_pool_g6 (r : DrawRow) : Option ℚ :=
  if r.group_6_winners > 0 then some (r.group_6_prize * r.group_6_winners / GROUP_6_ALLOCATION)
  else none

def est_prize_pool_g7 (r : DrawRow) : Option ℚ :=
  if r.group_7_winners > 0 then some (r.group_7_prize * r.group_7_winners / GROUP_7_ALLOCATION)
  else none

/-- `available_estimates`: the non-null per-tier pool estimates, tiers 2–7. -/
def available_estimates (r : DrawRow) : List ℚ :=
  List.filterMap id
    [est_prize_pool_g2 r, est_prize_pool_g3 r, est_prize_pool_g4 r,
     est_prize_pool_g5 r, est_prize_pool_g6 r, est_prize_pool_g7 r]

def estimated_prize_pool (r : DrawRow) : ℚ :=
  let avail := available_estimates r
  if avail.isEmpty then 2000000 * ORDINARY_ENTRY_PRICE * CONTRIBUTION_RATE
  else avail.sum / avail.length

def expected_group1_prize (r : DrawRow) : ℚ :=
  estimated_prize_pool r * GROUP_1_ALLOCATION

def estimated_sales (r : DrawRow) : ℚ :=
  estimated_prize_pool r / CONTRIBUTION_RATE

def rollover_amount (r : DrawRow) : ℚ :=
  if r.group_1_winners = 0 then expected_group1_prize r else 0

def total_winners (r : DrawRow) : ℚ :=
  r.group_1_winners + r.group_2_winners + r.group_3_winners + r.group_4_winners +
  r.group_5_winners + r.group_6_winners + r.group_7_winners

/-- Read the fourteen group columns out of a row (`row['group_i_winners']`,
`row['group_i_prize']`); failure models the `KeyError` the source would raise. -/
def readGroups (row : Row) : Option DrawRow := do
  let g1w ← getNumCell row "group_1_winners"
  let g1p ← getNumCell row "group_1_prize"
  let g2w ← getNumCell row "group_2_winners"
  let g2p ← getNumCell row "group_2_prize"
  let g3w ← getNumCell row "group_3_winners"
  let g3p ← getNumCell row "group_3_prize"
  let g4w ← getNumCell row "group_4_winners"
  let g4p ← getNumCell row "group_4_prize"
  let g5w ← getNumCell row "group_5_winners"
  let g5p ← getNumCell row "group_5_prize"
  let g6w ← getNumCell row "group_6_winners"
  let g6p ← getNumCell row "group_6_prize"
  let g7w ← getNumCell row "group_7_winners"
  let g7p ← getNumCell row "group_7_prize"
  pure ⟨g1w, g1p, g2w, g2p, g3w, g3p, g4w, g4p, g5w, g5p, g6w, g6p, g7w, g7p⟩

/-- One iteration of the `result_df.iterrows()` loop, together with this row's
share of the vectorised `result_df['total_winners']` assignment. -/
def processRow (row : Row) : Option Row := do
  let r ← readGroups row
  let row := setCell row "total_winners" (Cell.num (total_winners r))
  let row := setCell row "estimated_prize_pool" (Cell.num (estimated_prize_pool r))
  let row := setCell row "expected_group1_prize" (Cell.num (expected_group1_prize r))
  let row := setCell row "estimated_sales" (Cell.num (estimated_sales r))
  pure (setCell row "rollover_amount" (Cell.num (rollover_amount r)))

/-- `calculate_prize_pools`: works on a copy of the input frame, adding the
derived columns row by row.  `none` models an uncaught exception. -/
def calculate_prize_pools : List Row → Option (List Row)
  | [] => some []
  | row :: rest => do
    let row' ← processRow row
    let rest' ← calculate_prize_pools rest
    pure (row' :: rest')

/-! ### Specification-side restatement of the estimator (for claim C1) -/

def groupWinners (r : DrawRow) : ℕ → ℚ
  | 1 => r.group_1_winners
  | 2 => r.group_2_winners
  | 3 => r.group_3_winners
  | 4 => r.group_4_winners
  | 5 => r.group_5_winners
  | 6 => r.group_6_winners
  | 7 => r.group_7_winners
  | _ => 0

def groupPrize (r : DrawRow) : ℕ → ℚ
  | 1 => r.group_1_prize
  | 2 => r.group_2_prize
  | 3 => r.group_3_prize
  | 4 => r.group_4_prize
  | 5 => r.group_5_prize
  | 6 => r.group_6_prize
  | 7 => r.group_7_prize
  | _ => 0

def groupAllocation : ℕ → ℚ
  | 1 => GROUP_1_ALLOCATION
  | 2 => GROUP_2_ALLOCATION
  | 3 => GROUP_3_ALLOCATION
  | 4 => GROUP_4_ALLOCATION
  | 5 => GROUP_5_ALLOCATION
  | 6 => GROUP_6_ALLOCATION
  | 7 => GROUP_7_ALLOCATION
  | _ => 0

/-- The tiers in 2..7 with a strictly positive winner count. -/
def contributingTiers (r : DrawRow) : Finset ℕ :=
  (Finset.Icc 2 7).filter (fun i => 0 < groupWinners r i)

/-- The estimator as the specification words it: the arithmetic mean of
`prize_i * winners_i / allocation_i` over the contributing tiers, with the
fixed `2,000,000 * 1.00 * 0.54` fallback when no tier contributes. -/
def spec_estimated_prize_pool (r : DrawRow) : ℚ :=
  if (contributingTiers r).Nonempty then
    (∑ i ∈ contributingTiers r, groupPrize r i * groupWinners r i / groupAllocation i)
      / (contributingTiers r).card
  else 1080000

lemma icc_two_seven :
    (Finset.Icc 2 7 : Finset ℕ) = ⟨(↑[2,3,4,5,6,7] : Multiset ℕ), by decide⟩ := by decide

lemma sum_filter_icc (P : ℕ → Prop) [DecidablePred P] (f : ℕ → ℚ) :
    ∑ i ∈ (Finset.Icc 2 7).filter P, f i
      = (([2,3,4,5,6,7].filter (fun i => decide (P i))).map f).sum := by
  rw [icc_two_seven, Finset.sum, Finset.filter_val]
  simp [Multiset.filter_coe, Multiset.map_coe, List.filter_map]

lemma card_filter_icc (P : ℕ → Prop) [DecidablePred P] :
    ((Finset.Icc 2 7).filter P).card
      = ([2,3,4,5,6,7].filter (fun i => decide (P i))).length := by
  rw [icc_two_seven, Finset.card, Finset.filter_val]
  simp [Multiset.filter_coe]

lemma nonempty_filter_icc (P : ℕ → Prop) [DecidablePred P] :
    ((Finset.Icc 2 7).filter P).Nonempty ↔
      ([2,3,4,5,6,7].filter (fun i => decide (P i))) ≠ [] := by
  rw [icc_two_seven]
  constructor
  · rintro ⟨x, hx⟩
    simp only [Finset.mem_filter, Finset.mem_mk] at hx
    intro hemp
    have := List.filter_eq_nil_iff.mp hemp x (by simpa using hx.1)
    simp [hx.2] at this
  · intro hne
    rcases List.exists_mem_of_ne_nil _ hne with ⟨x, hx⟩
    rw [List.mem_filter] at hx
    exact ⟨x, by
      simp only [Finset.mem_filter, Finset.mem_mk]
      exact ⟨by simpa using hx.1, by simpa using hx.2⟩⟩

/-- The list of available estimates is exactly the contributing tiers of 2..7,
in order, mapped through the per-tier back-computation. -/
def tierEstimate (r : DrawRow) (i : ℕ) : ℚ :=
  groupPrize r i * groupWinners r i / groupAllocation i

lemma available_estimates_eq (r : DrawRow) :
    available_estimates r
      = ([2,3,4,5,6,7].filter (fun i => decide (0 < groupWinners r i))).map (tierEstimate r) := by
  simp only [available_estimates, est_prize_pool_g2, est_prize_pool_g3, est_prize_pool_g4,
    est_prize_pool_g5, est_prize_pool_g6, est_prize_pool_g7, tierEstimate,
    List.filter_cons, List.filter_nil, List.map_cons, List.map_nil, decide_eq_true_eq,
    groupWinners, groupPrize, groupAllocation]
  split_ifs <;>
    simp [List.filterMap_cons, List.filterMap_nil, tierEstimate,
      groupWinners, groupPrize, groupAllocation]

/-! ### Frame lemmas for the column-level calculator -/

/-- The five column names `calculate_prize_pools` writes. -/
def derivedColumns : List String :=
  ["total_winners", "estimated_prize_pool", "expected_group1_prize",
   "estimated_sales", "rollover_amount"]

lemma lookup_setCell_ne (row : Row) (c k : String) (v : Cell) (h : c ≠ k) :
    List.lookup c (setCell row k v) = List.lookup c row := by
  induction row with
  | nil =>
    have hb : (c == k) = false := by simp [h]
    simp [setCell, List.lookup, hb]
  | cons hd tl ih =>
    obtain ⟨k', w⟩ := hd
    by_cases hk : k' = k
    · subst hk
      have hb : (c == k') = false := by simp [h]
      simp [setCell, List.lookup, hb]
    · by_cases hc : c = k'
      · subst hc
        simp [setCell, hk, List.lookup]
      · have hb : (c == k') = false := by simp [hc]
        simp [setCell, hk, List.lookup, hb, ih]

lemma lookup_setCell_self (row : Row) (k : String) (v : Cell) :
    List.lookup k (setCell row k v) = some v := by
  induction row with
  | nil => simp [setCell, List.lookup]
  | cons hd tl ih =>
    obtain ⟨k', w⟩ := hd
    by_cases hk : k' = k
    · subst hk
      simp [setCell, List.lookup]
    · have hb : (k == k') = false := by
        simp only [beq_eq_false_iff_ne, ne_eq]
        exact fun hh => hk hh.symm
      simp [setCell, hk, List.lookup, hb, ih]

lemma processRow_frame (row out : Row) (h : processRow row = some out) (c : String)
    (hc : c ∉ derivedColumns) : List.lookup c out = List.lookup c row := by
  simp only [derivedColumns, List.mem_cons, List.not_mem_nil, or_false, not_or] at hc
  obtain ⟨h1, h2, h3, h4, h5⟩ := hc
  rw [processRow] at h
  cases hr : readGroups row with
  | none => rw [hr] at h; simp at h
  | some r =>
    rw [hr] at h
    simp only [Option.bind_eq_bind, Option.some_bind, Option.pure_def] at h
    cases h
    rw [lookup_setCell_ne _ _ _ _ h5, lookup_setCell_ne _ _ _ _ h4,
      lookup_setCell_ne _ _ _ _ h3, lookup_setCell_ne _ _ _ _ h2,
      lookup_setCell_ne _ _ _ _ h1]

lemma calculate_prize_pools_frame (df out : List Row)
    (h : calculate_prize_pools df = some out) :
    List.Forall₂ (fun rin rout => ∀ c, c ∉ derivedColumns →
      List.lookup c rout = List.lookup c rin) df out := by
  induction df generalizing out with
  | nil =>
    rw [calculate_prize_pools] at h
    cases h
    exact List.Forall₂.nil
  | cons row rest ih =>
    rw [calculate_prize_pools] at h
    cases hr : processRow row with
    | none => rw [hr] at h; simp at h
    | some row' =>
      rw [hr] at h
      cases hrest : calculate_prize_pools rest with
      | none => rw [hrest] at h; simp at h
      | some rest' =>
        rw [hrest] at h
        simp only [Option.bind_eq_bind, Option.some_bind, Option.pure_def] at h
        cases h
        exact List.Forall₂.cons (fun c hc => processRow_frame _ _ hr c hc) (ih _ hrest)

/-- A row with no winners in any tier. -/
def zeroRow : DrawRow := ⟨0, 0, 0, 0, 0, 0, 0, 0, 0, 0, 0, 0, 0, 0⟩

/-- Only tier 2 has winners: 5 winners at a prize of 100000. -/
def tier2Row : DrawRow := { zeroRow with group_2_winners := 5, group_2_prize := 100000 }

/-- A row whose tier-1 winner count is positive. -/
def oneWinnerRow : DrawRow := { zeroRow with group_1_winners := 1 }

/-- The fourteen group columns, all zero. -/
def groupCols : Row :=
  [("group_1_winners", Cell.num 0), ("group_1_prize", Cell.num 0),
   ("group_2_winners", Cell.num 0), ("group_2_prize", Cell.num 0),
   ("group_3_winners", Cell.num 0), ("group_3_prize", Cell.num 0),
   ("group_4_winners", Cell.num 0), ("group_4_prize", Cell.num 0),
   ("group_5_winners", Cell.num 0), ("group_5_prize", Cell.num 0),
   ("group_6_winners", Cell.num 0), ("group_6_prize", Cell.num 0),
   ("group_7_winners", Cell.num 0), ("group_7_prize", Cell.num 0)]

/-- An input frame row that already carries a `total_winners` column. -/
def clashRow : Row := groupCols ++ [("total_winners", Cell.num 999)]

/-- An input frame row with an untouched extra column. -/
def witRow : Row := groupCols ++ [("draw_number", Cell.num 42)]

/-- The output row `calculate_prize_pools` produces from `witRow`. -/
def witRowOut : Row :=
  groupCols ++
  [("draw_number", Cell.num 42), ("total_winners", Cell.num 0),
   ("estimated_prize_pool", Cell.num 1080000),
   ("expected_group1_prize", Cell.num 410400),
   ("estimated_sales", Cell.num 2000000),
   ("rollover_amount", Cell.num 410400)]

/-! ## Store (`src/db_utils.py`)

`save_database` inserts each record inside one transaction: it first queries
the `toto_results` table for an existing row with the record's `draw_number`;
if none exists it inserts, otherwise it deletes every row with that
`draw_number` and then inserts.  A record is the dictionary built from a
DataFrame row (lines 147-169 of `db_utils.py`). -/

structure DbRecord where
  draw_number : ℤ
  draw_date : String
  winning_numbers : List ℤ
  additional_number : ℤ
  group_1_winners : ℤ
  group_1_prize : ℚ
  group_2_winners : ℤ
  group_2_prize : ℚ
  group_3_winners : ℤ
  group_3_prize : ℚ
  group_4_winners : ℤ
  group_4_prize : ℚ
  group_5_winners : ℤ
  group_5_prize : ℚ
  group_6_winners : ℤ
  group_6_prize : ℚ
  group_7_winners : ℤ
  group_7_prize : ℚ
  estimated_jackpot : ℚ
  cascade_amount : ℚ
  query_string : String
deriving DecidableEq

/-- The `toto_results` table, as the list of its rows. -/
abbrev Store := List DbRecord

/-- One iteration of the insertion loop: check for an existing row with this
`draw_number`; insert if absent, else delete all rows with the number and
re-insert. -/
def upsertRecord (s : Store) (r : DbRecord) : Store :=
  match s.find? (fun x => x.draw_number == r.draw_number) with
  | none => s ++ [r]
  | some _ => (s.filter (fun x => x.draw_number != r.draw_number)) ++ [r]

/-- `save_database`: `None` or an empty frame is rejected with `False` and no
write; otherwise every record is upserted and `True` is returned. -/
def save_database (df : Option (List DbRecord)) (s : Store) : Bool × Store :=
  match df with
  | none => (false, s)
  | some rows =>
    if rows.isEmpty then (false, s)
    else (true, rows.foldl upsertRecord s)

/-- A sequence of update runs applied to a store. -/
def runsFold (runs : List (List DbRecord)) (s : Store) : Store :=
  runs.foldl (fun acc batch => (save_database (some batch) acc).2) s

/-- The persisted collection after a sequence of runs starting from an empty
store. -/
def applyRuns (runs : List (List DbRecord)) : Store :=
  runsFold runs []

/-- Reading the stored row for a draw number. -/
def getRecord (s : Store) (n : ℤ) : Option DbRecord :=
  s.find? (fun x => x.draw_number == n)

/-- The last record bearing draw number `n` in a list, if any. -/
def lastRecord (l : List DbRecord) (n : ℤ) : Option DbRecord :=
  match l with
  | [] => none
  | r :: rest =>
    match lastRecord rest n with
    | some x => some x
    | none => if r.draw_number = n then some r else none

lemma upsertRecord_eq (s : Store) (r : DbRecord) :
    upsertRecord s r = (s.filter (fun x => x.draw_number != r.draw_number)) ++ [r] := by
  rw [upsertRecord]
  cases h : s.find? (fun x => x.draw_number == r.draw_number) with
  | none =>
    have hall := List.find?_eq_none.mp h
    have : s.filter (fun x => x.draw_number != r.draw_number) = s := by
      apply List.filter_eq_self.mpr
      intro x hx
      simpa using hall x hx
    rw [this]
  | some _ => rfl

lemma find?_filter_of_imp {p q : DbRecord → Bool} (l : List DbRecord)
    (h : ∀ x, p x = true → q x = true) :
    (l.filter q).find? p = l.find? p := by
  induction l with
  | nil => rfl
  | cons a l ih =>
    by_cases hq : q a = true
    · rw [List.filter_cons_of_pos hq]
      cases hp : p a with
      | true => rw [List.find?_cons_of_pos _ hp, List.find?_cons_of_pos _ hp]
      | false =>
        rw [List.find?_cons_of_neg _ (by simp [hp]), List.find?_cons_of_neg _ (by simp [hp]), ih]
    · have hp : p a = false := by
        cases hpa : p a with
        | false => rfl
        | true => exact absurd (h a hpa) hq
      rw [List.filter_cons_of_neg (by simpa using hq), ih,
        List.find?_cons_of_neg _ (by simp [hp])]

lemma getRecord_upsertRecord (s : Store) (r : DbRecord) (n : ℤ) :
    getRecord (upsertRecord s r) n
      = if r.draw_number = n then some r else getRecord s n := by
  rw [upsertRecord_eq, getRecord, List.find?_append]
  by_cases hrn : r.draw_number = n
  · have hfilter : (s.filter (fun x => x.draw_number != r.draw_number)).find?
        (fun x => x.draw_number == n) = none := by
      rw [List.find?_eq_none]
      intro x hx
      rw [List.mem_filter] at hx
      have hne : x.draw_number ≠ r.draw_number := by simpa using hx.2
      simp [hrn ▸ hne]
    simp [hfilter, hrn]
  · have hfilter : (s.filter (fun x => x.draw_number != r.draw_number)).find?
        (fun x => x.draw_number == n) = s.find? (fun x => x.draw_number == n) := by
      apply find?_filter_of_imp
      intro x hx
      have hxn : x.draw_number = n := by simpa using hx
      simp only [bne_iff_ne, ne_eq, hxn, decide_eq_true_eq]
      exact fun hh => hrn hh.symm
    rw [hfilter, if_neg hrn, getRecord]
    cases hfind : s.find? (fun x => x.draw_number == n) with
    | some x => simp
    | none => simp [hrn]

lemma getRecord_foldl_upsert (batch : List DbRecord) (s : Store) (n : ℤ) :
    getRecord (batch.foldl upsertRecord s) n
      = match lastRecord batch n with
        | some x => some x
        | none => getRecord s n := by
  induction batch generalizing s with
  | nil => rfl
  | cons r rest ih =>
    rw [List.foldl_cons, ih, lastRecord]
    cases lastRecord rest n with
    | some x => rfl
    | none =>
      simp only
      rw [getRecord_upsertRecord]
      by_cases h : r.draw_number = n <;> simp [h]

lemma lastRecord_append (l₁ l₂ : List DbRecord) (n : ℤ) :
    lastRecord (l₁ ++ l₂) n
      = match lastRecord l₂ n with
        | some x => some x
        | none => lastRecord l₁ n := by
  induction l₁ with
  | nil =>
    simp only [List.nil_append]
    cases lastRecord l₂ n <;> rfl
  | cons r rest ih =>
    rw [List.cons_append, lastRecord, ih, lastRecord]
    cases lastRecord l₂ n <;> cases lastRecord rest n <;> rfl

lemma save_database_state (b : List DbRecord) (s : Store) :
    (save_database (some b) s).2 = b.foldl upsertRecord s := by
  rw [save_database]
  cases b with
  | nil => rfl
  | cons r rest => rfl

lemma getRecord_runsFold (runs : List (List DbRecord)) (s : Store) (n : ℤ) :
    getRecord (runsFold runs s) n
      = match lastRecord runs.flatten n with
        | some x => some x
        | none => getRecord s n := by
  induction runs generalizing s with
  | nil => rfl
  | cons b rest ih =>
    rw [runsFold, List.foldl_cons, ← runsFold, ih, save_database_state,
      List.flatten_cons, lastRecord_append]
    cases hrest : lastRecord rest.flatten n with
    | some x => rfl
    | none =>
      simp only
      rw [getRecord_foldl_upsert]

lemma nodup_upsertRecord (s : Store) (r : DbRecord)
    (h : (s.map (fun x => x.draw_number)).Nodup) :
    ((upsertRecord s r).map (fun x => x.draw_number)).Nodup := by
  rw [upsertRecord_eq, List.map_append, List.nodup_append]
  refine ⟨((List.filter_sublist s).map _).nodup h, by simp, ?_⟩
  intro a ha
  rw [List.mem_map] at ha
  obtain ⟨x, hx, hxa⟩ := ha
  rw [List.mem_filter] at hx
  have : x.draw_number ≠ r.draw_number := by simpa using hx.2
  simp only [List.map_cons, List.map_nil, List.mem_cons, List.not_mem_nil, or_false]
  exact fun hc => this (by rw [hxa, hc])

lemma nodup_foldl_upsert (batch : List DbRecord) (s : Store)
    (h : (s.map (fun x => x.draw_number)).Nodup) :
    ((batch.foldl upsertRecord s).map (fun x => x.draw_number)).Nodup := by
  induction batch generalizing s with
  | nil => exact h
  | cons r rest ih => exact ih _ (nodup_upsertRecord s r h)

lemma nodup_runsFold (runs : List (List DbRecord)) (s : Store)
    (h : (s.map (fun x => x.draw_number)).Nodup) :
    ((runsFold runs s).map (fun x => x.draw_number)).Nodup := by
  induction runs generalizing s with
  | nil => exact h
  | cons b rest ih =>
    rw [runsFold, List.foldl_cons, ← runsFold]
    exact ih _ (by rw [save_database_state]; exact nodup_foldl_upsert b s h)

/-! ## Reconciler (`src/data_utils.py`, `get_missing_query_strings`)

Catalog locators are the `{query_string, draw_number, draw_date}` dictionaries
produced by `find_query_str` (the catalog producer itself is not part of the
reconciler), and the existing data is the `draw_number` column of the current
DataFrame.  Strings are modelled as `List Char`; the Python string, base64 and
UTF-8 library operations the reconciler uses are given explicit models. -/

/-- `sep.isPrefixOf s → s.split(sep)[1] ...`: everything after the first
occurrence of `sep`, or `none` if `sep` does not occur (`sep` nonempty). -/
def afterFirst (sep : List Char) : List Char → Option (List Char)
  | [] => none
  | c :: rest =>
    if sep.isPrefixOf (c :: rest) then some ((c :: rest).drop sep.length)
    else afterFirst sep rest

/-- The prefix of `s` up to (excluding) the first occurrence of `sep`, or all
of `s` when `sep` does not occur. -/
def upToNext (sep : List Char) : List Char → List Char
  | [] => []
  | c :: rest => if sep.isPrefixOf (c :: rest) then [] else c :: upToNext sep rest

/-- Python `s.split(sep)[0]`. -/
def pySplitFirst (sep : List Char) (str : List Char) : List Char :=
  upToNext sep str

/-- Python `s.split(sep)[1]`, when the separator occurs at all. -/
def pySplitSecond (sep : List Char) (str : List Char) : Option (List Char) :=
  (afterFirst sep str).map (upToNext sep)

/-- Python `needle in haystack` (contiguous substring test). -/
def containsSub (needle : List Char) : List Char → Bool
  | [] => needle.isEmpty
  | c :: rest => needle.isPrefixOf (c :: rest) || containsSub needle rest

/-- Python `str.isdigit` over ASCII content. -/
def pyIsDigit (str : List Char) : Bool :=
  !str.isEmpty && str.all (fun c => c.isDigit)

/-- The numeric value of a digit string (`int(...)`). -/
def digitsToNat (str : List Char) : ℕ :=
  str.foldl (fun n c => 10 * n + (c.toNat - '0'.toNat)) 0

/-- `re.search(r'=(\d+)', s)`: the first `=` followed by at least one digit;
the capture is the maximal digit run. -/
def searchEqDigits : List Char → Option ℕ
  | [] => none
  | c :: rest =>
    if c = '=' then
      let ds := rest.takeWhile (fun d => d.isDigit)
      if ds.isEmpty then searchEqDigits rest else some (digitsToNat ds)
    else searchEqDigits rest

/-- The value of a standard base64 alphabet character. -/
def b64CharVal (c : Char) : Option ℕ :=
  if 'A' ≤ c ∧ c ≤ 'Z' then some (c.toNat - 65)
  else if 'a' ≤ c ∧ c ≤ 'z' then some (c.toNat - 97 + 26)
  else if '0' ≤ c ∧ c ≤ '9' then some (c.toNat - 48 + 52)
  else if c = '+' then some 62
  else if c = '/' then some 63
  else none

/-- Decode complete 6-bit quads into bytes; a trailing group of 2 or 3 values
yields 1 or 2 bytes (padding already validated away). -/
def decodeQuads : List ℕ → List ℕ
  | a :: b :: c :: d :: rest =>
    (a * 4 + b / 16) :: ((b % 16) * 16 + c / 4) :: ((c % 4) * 64 + d) :: decodeQuads rest
  | [a, b, c] => [a * 4 + b / 16, (b % 16) * 16 + c / 4]
  | [a, b] => [a * 4 + b / 16]
  | _ => []

/-- `base64.b64decode` (non-strict): characters outside the alphabet are
discarded, `=` is padding closing the final quad; incorrect padding fails. -/
def b64decodeBytes (str : List Char) : Option (List ℕ) :=
  let body := str.filter (fun c => (b64CharVal c).isSome || c = '=')
  let data := body.takeWhile (fun c => c ≠ '=')
  let pads := body.drop data.length
  if pads.all (fun c => c = '=') && (data.length + pads.length) % 4 = 0
      && data.length % 4 ≠ 1 then
    some (decodeQuads (data.filterMap b64CharVal))
  else none

/-- `bytes.decode('utf-8')`: strict UTF-8 decoding of a byte sequence. -/
def utf8Decode : List ℕ → Option (List Char)
  | [] => some []
  | b :: rest =>
    if b < 0x80 then
      (utf8Decode rest).map (fun cs => Char.ofNat b :: cs)
    else if 0xC2 ≤ b ∧ b ≤ 0xDF then
      match rest with
      | b2 :: rest2 =>
        if 0x80 ≤ b2 ∧ b2 ≤ 0xBF then
          (utf8Decode rest2).map (fun cs => Char.ofNat ((b - 0xC0) * 64 + (b2 - 0x80)) :: cs)
        else none
      | [] => none
    else if 0xE0 ≤ b ∧ b ≤ 0xEF then
      match rest with
      | b2 :: b3 :: rest3 =>
        let lo2 : ℕ := if b = 0xE0 then 0xA0 else 0x80
        let hi2 : ℕ := if b = 0xED then 0x9F else 0xBF
        if lo2 ≤ b2 ∧ b2 ≤ hi2 ∧ 0x80 ≤ b3 ∧ b3 ≤ 0xBF then
          (utf8Decode rest3).map (fun cs =>
            Char.ofNat (((b - 0xE0) * 4096) + (b2 - 0x80) * 64 + (b3 - 0x80)) :: cs)
        else none
      | _ => none
    else if 0xF0 ≤ b ∧ b ≤ 0xF4 then
      match rest with
      | b2 :: b3 :: b4 :: rest4 =>
        let lo2 : ℕ := if b = 0xF0 then 0x90 else 0x80
        let hi2 : ℕ := if b = 0xF4 then 0x8F else 0xBF
        if lo2 ≤ b2 ∧ b2 ≤ hi2 ∧ 0x80 ≤ b3 ∧ b3 ≤ 0xBF ∧ 0x80 ≤ b4 ∧ b4 ≤ 0xBF then
          (utf8Decode rest4).map (fun cs =>
            Char.ofNat (((b - 0xF0) * 262144) + (b2 - 0x80) * 4096
              + (b3 - 0x80) * 64 + (b4 - 0x80)) :: cs)
        else none
      | _ => none
    else none

/-- A catalog locator as produced by `find_query_str`:
`{'query_string': ..., 'draw_number': ..., 'draw_date': ...}`. -/
structure DrawInfo where
  query_string : List Char
  draw_number : Option ℤ
  draw_date : Option (List Char)
deriving DecidableEq

/-- The first-pass/fallback decode of an `sppl=` token: take the text between
the first and second `=`, base64-decode it, decode UTF-8, then search the
result for `=(\d+)`. -/
def decodeSpplNumber (qs : List Char) : Option ℤ :=
  if "sppl=".data.isPrefixOf qs then
    match pySplitSecond ['='] qs with
    | none => none
    | some enc =>
      match b64decodeBytes enc with
      | none => none
      | some bytes =>
        match utf8Decode bytes with
        | none => none
        | some decoded => (searchEqDigits decoded).map (fun n => (n : ℤ))
  else none

/-- `query_string.split("id=")[1].split("&")[0]` when it is all digits:
the numeric value of a literal `id=` parameter. -/
def extractIdParam (qs : List Char) : Option ℤ :=
  if containsSub "id=".data qs then
    match pySplitSecond "id=".data qs with
    | some seg =>
      let draw_id := pySplitFirst ['&'] seg
      if pyIsDigit draw_id then some ((digitsToNat draw_id : ℕ) : ℤ) else none
    | none => none
  else none

/-- The draw number the reconciler can recover from a locator, in the order
the second pass consults its sources: the decoded `sppl=` token (the
first-pass dictionary), the number attached to the locator, and the `id=`
query parameter. -/
def recoveredDrawNumber (info : DrawInfo) : Option ℤ :=
  match decodeSpplNumber info.query_string with
  | some n => some n
  | none =>
    match info.draw_number with
    | some n => some n
    | none => extractIdParam info.query_string

/-- Python dict assignment `d[k] = v`. -/
def insertAssoc (acc : List (List Char × ℤ)) (k : List Char) (v : ℤ) :
    List (List Char × ℤ) :=
  match acc with
  | [] => [(k, v)]
  | (k', v') :: t => if k' = k then (k, v) :: t else (k', v') :: insertAssoc t k v

/-- The first pass: decode every `sppl=` query string into
`found_draw_numbers`. -/
def firstPass (infos : List DrawInfo) : List (List Char × ℤ) :=
  infos.foldl (fun acc info =>
    match decodeSpplNumber info.query_string with
    | some n => insertAssoc acc info.query_string n
    | none => acc) []

/-- The second-pass decision for one locator: `true` when the locator is
appended to `missing_query_strings`. -/
def includeInfo (found : List (List Char × ℤ)) (existing : List ℤ)
    (info : DrawInfo) : Bool :=
  match List.lookup info.query_string found with
  | some extracted => decide (extracted ∉ existing)
  | none =>
    match info.draw_number with
    | some n => decide (n ∉ existing)
    | none =>
      if containsSub "id=".data info.query_string then
        match pySplitSecond "id=".data info.query_string with
        | some seg =>
          let draw_id := pySplitFirst ['&'] seg
          decide (pyIsDigit draw_id = true ∧ ((digitsToNat draw_id : ℕ) : ℤ) ∉ existing)
        | none => false
      else if "sppl=".data.isPrefixOf info.query_string then
        match pySplitSecond ['='] info.query_string with
        | none => true
        | some enc =>
          match b64decodeBytes enc with
          | none => true
          | some bytes =>
            match utf8Decode bytes with
            | none => true
            | some decoded =>
              match searchEqDigits decoded with
              | some n => decide ((n : ℤ) ∉ existing)
              | none => true
      else true

/-- `get_missing_query_strings`: `current_data` is the `draw_number` column of
the existing DataFrame (`None` when there is no data). -/
def get_missing_query_strings (all_draw_info : List DrawInfo)
    (current_data : Option (List ℤ)) : List (List Char) :=
  if all_draw_info.isEmpty then []
  else
    match current_data with
    | none => all_draw_info.map (fun i => i.query_string)
    | some col =>
      if col.isEmpty then all_draw_info.map (fun i => i.query_string)
      else
        let found := firstPass all_draw_info
        all_draw_info.foldl (fun acc info =>
          if includeInfo found col info then acc ++ [info.query_string] else acc) []

lemma missing_foldl_eq (found : List (List Char × ℤ)) (existing : List ℤ)
    (infos : List DrawInfo) (acc : List (List Char)) :
    infos.foldl (fun acc info =>
        if includeInfo found existing info then acc ++ [info.query_string] else acc) acc
      = acc ++ (infos.filter (includeInfo found existing)).map (fun i => i.query_string) := by
  induction infos generalizing acc with
  | nil => simp
  | cons i rest ih =>
    rw [List.foldl_cons]
    by_cases h : includeInfo found existing i = true
    · rw [if_pos h, ih, List.filter_cons_of_pos h]
      simp
    · rw [if_neg h, ih, List.filter_cons_of_neg (by simpa using h)]

lemma lookup_insertAssoc_self (acc : List (List Char × ℤ)) (k : List Char) (v : ℤ) :
    List.lookup k (insertAssoc acc k v) = some v := by
  induction acc with
  | nil => simp [insertAssoc, List.lookup]
  | cons hd t ih =>
    obtain ⟨k', v'⟩ := hd
    by_cases hk : k' = k
    · subst hk
      simp [insertAssoc, List.lookup]
    · have hb : (k == k') = false := by
        simp only [beq_eq_false_iff_ne, ne_eq]
        exact fun hh => hk hh.symm
      simp [insertAssoc, hk, List.lookup, hb, ih]

lemma lookup_insertAssoc_ne (acc : List (List Char × ℤ)) (k k' : List Char) (v : ℤ)
    (h : k' ≠ k) : List.lookup k' (insertAssoc acc k v) = List.lookup k' acc := by
  induction acc with
  | nil =>
    have hb : (k' == k) = false := by simp [h]
    simp [insertAssoc, List.lookup, hb]
  | cons hd t ih =>
    obtain ⟨k'', v''⟩ := hd
    by_cases hk : k'' = k
    · subst hk
      have hb : (k' == k'') = false := by simp [h]
      simp [insertAssoc, List.lookup, hb]
    · by_cases hc : k' = k''
      · subst hc
        simp [insertAssoc, hk, List.lookup]
      · have hb : (k' == k'') = false := by simp [hc]
        simp [insertAssoc, hk, List.lookup, hb, ih]

/-- The `found_draw_numbers` dictionary after folding: a key is present
exactly when some catalog entry bears it and it decodes, and its value is the
decode of the key. -/
lemma lookup_foldl_firstPass (infos : List DrawInfo) (acc : List (List Char × ℤ))
    (qs : List Char) :
    List.lookup qs (infos.foldl (fun acc info =>
        match decodeSpplNumber info.query_string with
        | some n => insertAssoc acc info.query_string n
        | none => acc) acc)
      = if infos.any (fun i => i.query_string == qs && (decodeSpplNumber qs).isSome)
        then decodeSpplNumber qs
        else List.lookup qs acc := by
  induction infos generalizing acc with
  | nil => simp
  | cons i rest ih =>
    rw [List.foldl_cons, ih, List.any_cons]
    by_cases hrest : rest.any (fun i => i.query_string == qs && (decodeSpplNumber qs).isSome) = true
    · simp [hrest]
    · have hrest' : rest.any (fun i => i.query_string == qs && (decodeSpplNumber qs).isSome) = false := by
        simpa using hrest
      rw [hrest']
      by_cases hqs : i.query_string = qs
      · subst hqs
        cases hdec : decodeSpplNumber i.query_string with
        | some m =>
          simp [hdec, lookup_insertAssoc_self]
        | none =>
          simp [hdec]
      · have hb : (i.query_string == qs) = false := by simp [hqs]
        cases hdec : decodeSpplNumber i.query_string with
        | some m =>
          simp [hdec, hb, lookup_insertAssoc_ne _ _ _ _ (fun hh => hqs hh.symm)]
        | none =>
          simp [hdec, hb]

lemma lookup_firstPass_none (infos : List DrawInfo) (qs : List Char)
    (h : decodeSpplNumber qs = none) :
    List.lookup qs (firstPass infos) = none := by
  rw [firstPass, lookup_foldl_firstPass]
  simp [h]

lemma lookup_firstPass_some (infos : List DrawInfo) (qs : List Char) (n : ℤ)
    (hmem : ∃ i ∈ infos, i.query_string = qs)
    (h : decodeSpplNumber qs = some n) :
    List.lookup qs (firstPass infos) = some n := by
  rw [firstPass, lookup_foldl_firstPass]
  obtain ⟨i, hi, hiq⟩ := hmem
  have hany : infos.any (fun i => i.query_string == qs && (decodeSpplNumber qs).isSome) = true := by
    rw [List.any_eq_true]
    exact ⟨i, hi, by simp [hiq, h]⟩
  rw [if_pos hany, h]

/-- For a locator whose draw number is recoverable, the second pass includes
it exactly when the number is absent from the existing set. -/
lemma includeInfo_eq_of_recovered (infos : List DrawInfo) (existing : List ℤ)
    (info : DrawInfo) (n : ℤ) (hmem : info ∈ infos)
    (hrec : recoveredDrawNumber info = some n) :
    includeInfo (firstPass infos) existing info = decide (n ∉ existing) := by
  rw [recoveredDrawNumber] at hrec
  cases hdec : decodeSpplNumber info.query_string with
  | some m =>
    rw [hdec] at hrec
    have hm : m = n := by simpa using hrec
    subst hm
    rw [includeInfo, lookup_firstPass_some infos _ m ⟨info, hmem, rfl⟩ hdec]
  | none =>
    rw [hdec] at hrec
    have hlk := lookup_firstPass_none infos info.query_string hdec
    cases hdn : info.draw_number with
    | some m =>
      rw [hdn] at hrec
      have hm : m = n := by simpa using hrec
      subst hm
      rw [includeInfo, hlk, hdn]
    | none =>
      rw [hdn] at hrec
      rw [extractIdParam] at hrec
      by_cases hcont : containsSub "id=".data info.query_string = true
      · rw [if_pos hcont] at hrec
        cases hsplit : pySplitSecond "id=".data info.query_string with
        | some seg =>
          rw [hsplit] at hrec
          simp only at hrec
          by_cases hdig : pyIsDigit (pySplitFirst ['&'] seg) = true
          · rw [if_pos hdig] at hrec
            have hv : ((digitsToNat (pySplitFirst ['&'] seg) : ℕ) : ℤ) = n := by
              simpa using hrec
            rw [includeInfo, hlk, hdn]
            simp only [hcont, if_true, hsplit]
            rw [hv]
            simp [hdig]
          · rw [if_neg hdig] at hrec
            cases hrec
        | none =>
          rw [hsplit] at hrec
          cases hrec
      · rw [if_neg hcont] at hrec
        cases hrec

lemma mem_missing_iff (infos : List DrawInfo) (col : List ℤ) (qs : List Char)
    (hinfos : infos ≠ []) (hcol : col ≠ []) :
    qs ∈ get_missing_query_strings infos (some col)
      ↔ ∃ info ∈ infos, info.query_string = qs ∧
          includeInfo (firstPass infos) col info = true := by
  rw [get_missing_query_strings,
    if_neg (by simpa [List.isEmpty_iff] using hinfos)]
  simp only
  rw [if_neg (by simpa [List.isEmpty_iff] using hcol)]
  rw [missing_foldl_eq]
  simp only [List.nil_append, List.mem_map, List.mem_filter]
  constructor
  · rintro ⟨info, ⟨hmem, hinc⟩, hq⟩
    exact ⟨info, hmem, hq, hinc⟩
  · rintro ⟨info, hmem, hq, hinc⟩
    exact ⟨info, ⟨hmem, hinc⟩, hq⟩

/-- A locator with no recoverable number and no `id=` substring is included
by the second pass. -/
lemma includeInfo_unrecoverable (infos : List DrawInfo) (existing : List ℤ)
    (info : DrawInfo)
    (hdn : info.draw_number = none)
    (hdec : decodeSpplNumber info.query_string = none)
    (hcont : containsSub "id=".data info.query_string = false) :
    includeInfo (firstPass infos) existing info = true := by
  rw [includeInfo, lookup_firstPass_none infos _ hdec, hdn]
  simp only [hcont, Bool.false_eq_true, if_false]
  by_cases hpre : "sppl=".data.isPrefixOf info.query_string = true
  · rw [decodeSpplNumber, if_pos hpre] at hdec
    simp only [hpre, if_true]
    cases hsplit : pySplitSecond ['='] info.query_string with
    | none => rfl
    | some enc =>
      rw [hsplit] at hdec
      dsimp only at hdec ⊢
      cases hb64 : b64decodeBytes enc with
      | none => rfl
      | some bytes =>
        rw [hb64] at hdec
        dsimp only at hdec ⊢
        cases hutf : utf8Decode bytes with
        | none => rfl
        | some decoded =>
          rw [hutf] at hdec
          dsimp only at hdec ⊢
          cases hsearch : searchEqDigits decoded with
          | none => rfl
          | some m => rw [hsearch] at hdec; simp at hdec
  · have hpre' : ("sppl=".data.isPrefixOf info.query_string) = false := by
      simp only [Bool.not_eq_true] at hpre
      exact hpre
    simp [hpre']

/-- A locator with no recoverable number whose `id=` value is not all digits
is dropped by the second pass (counted among the filtered, not the missing). -/
lemma includeInfo_false_of_id_unrecoverable (infos : List DrawInfo)
    (existing : List ℤ) (info : DrawInfo)
    (hdn : info.draw_number = none)
    (hdec : decodeSpplNumber info.query_string = none)
    (hcont : containsSub "id=".data info.query_string = true)
    (hid : extractIdParam info.query_string = none) :
    includeInfo (firstPass infos) existing info = false := by
  rw [extractIdParam, if_pos hcont] at hid
  rw [includeInfo, lookup_firstPass_none infos _ hdec, hdn]
  simp only [hcont, if_true]
  cases hsplit : pySplitSecond "id=".data info.query_string with
  | none => rfl
  | some seg =>
    rw [hsplit] at hid
    simp only at hid
    by_cases hdig : pyIsDigit (pySplitFirst ['&'] seg) = true
    · rw [if_pos hdig] at hid
      cases hid
    · have hdig' : pyIsDigit (pySplitFirst ['&'] seg) = false := by simpa using hdig
      simp [hdig']

/-- A locator whose `id=` value is not numeric. -/
def infoId : DrawInfo := ⟨"id=abc".data, none, none⟩

/-- A locator carrying no draw-number information at all. -/
def infoFoo : DrawInfo := ⟨"foo".data, none, none⟩

/-- A locator whose `sppl=` token decodes to draw number 101. -/
def info101 : DrawInfo := ⟨"sppl=aWQ9MTAx".data, none, none⟩

/-- A locator whose `sppl=` token decodes to draw number 103. -/
def info103 : DrawInfo := ⟨"sppl=aWQ9MTAz".data, none, none⟩

/-! ## Catalog (`src/scraper.py`, `get_available_draw_dates`)

The archive-page fetch is modelled by the response the transport returns
(`none` standing for a raised exception); the response body is either parsed
JSON (a list of `{drawDate, queryString}` entries, or some other JSON value)
or HTML, of which the function inspects the `selectDrawList` dropdown options
and the `<a href>` links.  `datetime.strptime` is modelled for exactly the
format strings the source tries. -/

/-- A calendar date `(year, month, day)`. -/
abbrev PyDate := ℕ × ℕ × ℕ

def isLeap (y : ℕ) : Bool := (y % 4 = 0 && y % 100 ≠ 0) || (y % 400 = 0)

def daysInMonth (y m : ℕ) : ℕ :=
  if m = 2 then (if isLeap y then 29 else 28)
  else if m = 4 ∨ m = 6 ∨ m = 9 ∨ m = 11 then 30
  else 31

def validDate (y m d : ℕ) : Bool :=
  1 ≤ m && m ≤ 12 && 1 ≤ d && d ≤ daysInMonth y m

def takeExactDigitsAux : ℕ → ℕ → List Char → Option (ℕ × List Char)
  | 0, acc, str => some (acc, str)
  | _ + 1, _, [] => none
  | k + 1, acc, c :: rest =>
    if c.isDigit then takeExactDigitsAux k (acc * 10 + (c.toNat - 48)) rest else none

/-- Consume exactly `k` digits. -/
def takeExactDigits (k : ℕ) (str : List Char) : Option (ℕ × List Char) :=
  takeExactDigitsAux k 0 str

/-- `\d{1,2}` with regex backtracking: try two digits, and if the
continuation fails, one. -/
def take12Digits (str : List Char) (k : ℕ → List Char → Option PyDate) : Option PyDate :=
  match takeExactDigits 2 str with
  | some (v, rest) =>
    match k v rest with
    | some r => some r
    | none =>
      match takeExactDigits 1 str with
      | some (v1, r1) => k v1 r1
      | none => none
  | none =>
    match takeExactDigits 1 str with
    | some (v, rest) => k v rest
    | none => none

/-- A literal character in a format string. -/
def expectChar (c : Char) : List Char → Option (List Char)
  | [] => none
  | c' :: rest => if c' = c then some rest else none

/-- Whitespace in a `strptime` format string matches `\s+`. -/
def expectSpaces : List Char → Option (List Char)
  | [] => none
  | c :: rest =>
    if c.isWhitespace then some (rest.dropWhile (fun d => d.isWhitespace)) else none

def monthAbbrevs : List (List Char) :=
  ["jan".data, "feb".data, "mar".data, "apr".data, "may".data, "jun".data,
   "jul".data, "aug".data, "sep".data, "oct".data, "nov".data, "dec".data]

def monthFulls : List (List Char) :=
  ["january".data, "february".data, "march".data, "april".data, "may".data,
   "june".data, "july".data, "august".data, "september".data, "october".data,
   "november".data, "december".data]

def dayAbbrevs : List (List Char) :=
  ["mon".data, "tue".data, "wed".data, "thu".data, "fri".data, "sat".data, "sun".data]

def matchNameAux (names : List (List Char)) (i : ℕ) (low str : List Char) :
    Option (ℕ × List Char) :=
  match names with
  | [] => none
  | nm :: rest =>
    if nm.isPrefixOf low then some (i, str.drop nm.length)
    else matchNameAux rest (i + 1) low str

/-- Case-insensitive name-table match (month or weekday names), returning the
1-based index. -/
def matchName (names : List (List Char)) (str : List Char) : Option (ℕ × List Char) :=
  matchNameAux names 1 (str.map Char.toLower) str

/-- The `strptime` format strings the source tries. -/
inductive PyFormat where
  | dmySlash   -- `%d/%m/%Y`
  | ymdDash    -- `%Y-%m-%d`
  | dmyDash    -- `%d-%m-%Y`
  | dAbbrevY   -- `%d %b %Y`
  | dFullY     -- `%d %B %Y`
  | wAbbrevY   -- `%a, %d %b %Y`
deriving DecidableEq

def finishDate (y m d : ℕ) (rest : List Char) : Option PyDate :=
  match rest with
  | [] => if validDate y m d then some (y, m, d) else none
  | _ :: _ => none

def parseDSepMSepY (sep : Char) (str : List Char) : Option PyDate :=
  take12Digits str (fun d rest =>
    match expectChar sep rest with
    | none => none
    | some rest1 =>
      take12Digits rest1 (fun m rest2 =>
        match expectChar sep rest2 with
        | none => none
        | some rest3 =>
          match takeExactDigits 4 rest3 with
          | none => none
          | some (y, rest4) => finishDate y m d rest4))

def parseYSepMSepD (sep : Char) (str : List Char) : Option PyDate :=
  match takeExactDigits 4 str with
  | none => none
  | some (y, rest) =>
    match expectChar sep rest with
    | none => none
    | some rest1 =>
      take12Digits rest1 (fun m rest2 =>
        match expectChar sep rest2 with
        | none => none
        | some rest3 =>
          take12Digits rest3 (fun d rest4 => finishDate y m d rest4))

def parseDNameY (names : List (List Char)) (str : List Char) : Option PyDate :=
  take12Digits str (fun d rest =>
    match expectSpaces rest with
    | none => none
    | some rest1 =>
      match matchName names rest1 with
      | none => none
      | some (m, rest2) =>
        match expectSpaces rest2 with
        | none => none
        | some rest3 =>
          match takeExactDigits 4 rest3 with
          | none => none
          | some (y, rest4) => finishDate y m d rest4)

def strptime : PyFormat → List Char → Option PyDate
  | .dmySlash, str => parseDSepMSepY '/' str
  | .ymdDash, str => parseYSepMSepD '-' str
  | .dmyDash, str => parseDSepMSepY '-' str
  | .dAbbrevY, str => parseDNameY monthAbbrevs str
  | .dFullY, str => parseDNameY monthFulls str
  | .wAbbrevY, str =>
    match matchName dayAbbrevs str with
    | none => none
    | some (_, rest) =>
      match expectChar ',' rest with
      | none => none
      | some rest1 =>
        match expectSpaces rest1 with
        | none => none
        | some rest2 => parseDNameY monthAbbrevs rest2

/-- Try formats in order, first success wins (the `for fmt in [...]` loop). -/
def tryFormats (fmts : List PyFormat) (str : List Char) : Option PyDate :=
  match fmts with
  | [] => none
  | f :: rest =>
    match strptime f str with
    | some dt => some dt
    | none => tryFormats rest str

/-- The list tried in the JSON branch and the link fallback. -/
def jsonFormats : List PyFormat :=
  [.dmySlash, .ymdDash, .dmyDash, .dAbbrevY, .dFullY]

/-- The list tried for the dropdown option labels. -/
def selectFormats : List PyFormat :=
  [.wAbbrevY, .dAbbrevY, .dmySlash, .ymdDash]

def natDigits (n : ℕ) : List Char := Nat.toDigits 10 n

def pad2 (n : ℕ) : List Char :=
  if n < 10 then '0' :: natDigits n else natDigits n

def pad4 (n : ℕ) : List Char :=
  List.replicate (4 - (natDigits n).length) '0' ++ natDigits n

/-- `date.strftime('%Y-%m-%d')`. -/
def formatYMD (dt : PyDate) : List Char :=
  pad4 dt.1 ++ ('-' :: pad2 dt.2.1) ++ ('-' :: pad2 dt.2.2)

/-- One entry of the JSON draw list; the `Option` fields model the
`'drawDate' in draw` / `'queryString' in draw` key checks. -/
structure JsonEntry where
  drawDate : Option (List Char)
  queryString : Option (List Char)
deriving DecidableEq

/-- One `<option>` of the `selectDrawList` dropdown: its `queryString`
attribute (when present) and its stripped label text. -/
structure OptionEl where
  queryString : Option (List Char)
  text : List Char
deriving DecidableEq

/-- One `<a href=...>` element: the `href` and the stripped link text. -/
structure LinkEl where
  href : List Char
  text : List Char
deriving DecidableEq

inductive ResponseContent where
  | jsonList (entries : List JsonEntry)
  | jsonOther
  | html (select : Option (List OptionEl)) (links : List LinkEl)
deriving DecidableEq

structure FetchResponse where
  status : ℕ
  content : ResponseContent
deriving DecidableEq

/-- A separator of the archive-page date regex: `[/\-\s]`. -/
def isDateSep (c : Char) : Bool := c = '/' || c = '-' || c.isWhitespace

/-- First alternative of `date_pattern` matched at the head of `s`:
`\d{1,2}[/\-\s][A-Za-z]{0,9}[/\-\s]\d{4}`; returns the matched text. -/
def alt1From (str : List Char) : Option (List Char) :=
  let withD : ℕ → Option (List Char) := fun k =>
    match takeExactDigits k str with
    | none => none
    | some (_, rest) =>
      match rest with
      | [] => none
      | c1 :: rest1 =>
        if isDateSep c1 then
          let alphas := rest1.takeWhile (fun c => c.isAlpha)
          if alphas.length ≤ 9 then
            match rest1.dropWhile (fun c => c.isAlpha) with
            | [] => none
            | c2 :: rest2 =>
              if isDateSep c2 then
                match takeExactDigits 4 rest2 with
                | some (_, _) =>
                  some (str.take (k + 1 + alphas.length + 1 + 4))
                | none => none
              else none
          else none
        else none
  match withD 2 with
  | some m => some m
  | none => withD 1

/-- Second alternative: `\d{4}[/\-]\d{1,2}[/\-]\d{1,2}`. -/
def alt2From (str : List Char) : Option (List Char) :=
  match takeExactDigits 4 str with
  | none => none
  | some (_, rest) =>
    match rest with
    | [] => none
    | c1 :: rest1 =>
      if c1 = '/' || c1 = '-' then
        let withM : ℕ → Option (List Char) := fun k =>
          match takeExactDigits k rest1 with
          | none => none
          | some (_, restm) =>
            match restm with
            | [] => none
            | c2 :: rest2 =>
              if c2 = '/' || c2 = '-' then
                match takeExactDigits 2 rest2 with
                | some (_, _) => some (str.take (4 + 1 + k + 1 + 2))
                | none =>
                  match takeExactDigits 1 rest2 with
                  | some (_, _) => some (str.take (4 + 1 + k + 1 + 1))
                  | none => none
              else none
        match withM 2 with
        | some m => some m
        | none => withM 1
      else none

/-- `date_pattern.search(link_text)`: scan left to right, first alternative
preferred at each position; returns `match.group(0)`. -/
def dateSearch : List Char → Option (List Char)
  | [] => none
  | c :: rest =>
    match alt1From (c :: rest) with
    | some m => some m
    | none =>
      match alt2From (c :: rest) with
      | some m => some m
      | none => dateSearch rest

/-- Python dict assignment for the `date_to_query` dictionary. -/
def insertDate (acc : List (List Char × List Char)) (k v : List Char) :
    List (List Char × List Char) :=
  match acc with
  | [] => [(k, v)]
  | (k', v') :: t => if k' = k then (k, v) :: t else (k', v') :: insertDate t k v

/-- The JSON branch: one `date_to_query` update per entry. -/
def jsonStep (acc : List (List Char × List Char)) (e : JsonEntry) :
    List (List Char × List Char) :=
  match e.drawDate, e.queryString with
  | some ds, some qs =>
    match tryFormats jsonFormats ds with
    | some dt => insertDate acc (formatYMD dt) qs
    | none => acc
  | _, _ => acc

def buildDictJson (entries : List JsonEntry) : List (List Char × List Char) :=
  entries.foldl jsonStep []

/-- The dropdown branch: one update per `<option>`. -/
def optionStep (acc : List (List Char × List Char)) (o : OptionEl) :
    List (List Char × List Char) :=
  match o.queryString with
  | some qs =>
    match tryFormats selectFormats o.text with
    | some dt => insertDate acc (formatYMD dt) qs
    | none => acc
  | none => acc

def buildDictOptions (opts : List OptionEl) : List (List Char × List Char) :=
  opts.foldl optionStep []

/-- The link fallback: one update per `<a href>`. -/
def linkStep (acc : List (List Char × List Char)) (l : LinkEl) :
    List (List Char × List Char) :=
  if containsSub "toto_results.aspx?".data l.href then
    match pySplitSecond "toto_results.aspx?".data l.href with
    | none => acc
    | some qs =>
      match dateSearch l.text with
      | none => acc
      | some dstr =>
        match tryFormats jsonFormats dstr with
        | some dt => insertDate acc (formatYMD dt) qs
        | none => acc
  else acc

def buildDictLinks (links : List LinkEl) : List (List Char × List Char) :=
  links.foldl linkStep []

/-- Lexicographic order on character lists (Python string comparison of the
`%Y-%m-%d` keys). -/
def listCharLt : List Char → List Char → Bool
  | [], [] => false
  | [], _ :: _ => true
  | _ :: _, [] => false
  | a :: as, b :: bs => if a = b then listCharLt as bs else decide (a < b)

def insertDesc (x : List Char × List Char) :
    List (List Char × List Char) → List (List Char × List Char)
  | [] => [x]
  | y :: t => if listCharLt y.1 x.1 then x :: y :: t else y :: insertDesc x t

/-- `sorted(date_to_query.keys(), reverse=True)` re-packed with the values. -/
def sortDescend (d : List (List Char × List Char)) : List (List Char × List Char) :=
  d.foldl (fun acc x => insertDesc x acc) []

/-- `get_available_draw_dates`: `none` models an exception raised during the
fetch, which the function catches and converts to an empty dictionary. -/
def get_available_draw_dates (resp : Option FetchResponse) :
    List (List Char × List Char) :=
  match resp with
  | none => []
  | some r =>
    if r.status = 200 then
      match r.content with
      | .jsonList entries => sortDescend (buildDictJson entries)
      | .jsonOther => sortDescend []
      | .html select links =>
        let d1 :=
          match select with
          | some options => buildDictOptions options
          | none => []
        let d := if d1.isEmpty then buildDictLinks links else d1
        sortDescend d
    else []

/-- A JSON entry whose date string parses under no format. -/
def badEntry : JsonEntry := ⟨some "xx".data, some "q1".data⟩

/-- A JSON entry with a well-formed date. -/
def goodEntry : JsonEntry := ⟨some "07/04/2025".data, some "q2".data⟩

/-- A dropdown option whose label parses under no format. -/
def badOption : OptionEl := ⟨some "q3".data, "gibberish".data⟩

/-! ## Result-page extraction (`src/scraper.py`, `scrape_toto_results`)

The parsed page (BeautifulSoup) is modelled as a tree of element and text
nodes; `find_all` is a preorder traversal, `parent` chains are ancestor
stacks, and `get_text(strip=True)` concatenates stripped descendant strings.
The tables handed to `pd.read_html` are modelled by their grid of cell texts
(one row per `<tr>`, one cell per `<td>`/`<th>`). -/

inductive HtmlNode where
  | text (s : List Char)
  | elem (tag : List Char) (classes : List (List Char)) (children : List HtmlNode)

abbrev HtmlDoc := List HtmlNode

mutual

/-- All string nodes below a node, in document order. -/
def nodeStrings : HtmlNode → List (List Char)
  | .text s => [s]
  | .elem _ _ children => nodeStringsList children

def nodeStringsList : List HtmlNode → List (List Char)
  | [] => []
  | n :: rest => nodeStrings n ++ nodeStringsList rest

end

mutual

/-- `find_all(p)`: all matching elements, preorder, the node included. -/
def findElems (p : HtmlNode → Bool) : HtmlNode → List HtmlNode
  | .text s => if p (.text s) then [.text s] else []
  | .elem tag cls children =>
    (if p (.elem tag cls children) then [HtmlNode.elem tag cls children] else [])
      ++ findElemsList p children

def findElemsList (p : HtmlNode → Bool) : List HtmlNode → List HtmlNode
  | [] => []
  | n :: rest => findElems p n ++ findElemsList p rest

end

mutual

/-- The ancestor stack (nearest first) of the first text node satisfying
`pred`, in document order. -/
def findTextAnc (pred : List Char → Bool) (anc : List HtmlNode) :
    HtmlNode → Option (List HtmlNode)
  | .text s => if pred s then some anc else none
  | .elem tag cls children =>
    findTextAncList pred (HtmlNode.elem tag cls children :: anc) children

def findTextAncList (pred : List Char → Bool) (anc : List HtmlNode) :
    List HtmlNode → Option (List HtmlNode)
  | [] => none
  | n :: rest =>
    match findTextAnc pred anc n with
    | some r => some r
    | none => findTextAncList pred anc rest

end

def trimChars (str : List Char) : List Char :=
  ((str.dropWhile (fun c => c.isWhitespace)).reverse.dropWhile
    (fun c => c.isWhitespace)).reverse

/-- `get_text(strip=True)`. -/
def getText (n : HtmlNode) : List Char :=
  ((nodeStrings n).map trimChars).flatten

def tagIs (t : List Char) (n : HtmlNode) : Bool :=
  match n with
  | .elem tag _ _ => tag == t
  | .text _ => false

def tagIn (ts : List (List Char)) (n : HtmlNode) : Bool :=
  match n with
  | .elem tag _ _ => ts.any (fun t => tag == t)
  | .text _ => false

def classPred (p : List Char → Bool) (n : HtmlNode) : Bool :=
  match n with
  | .elem _ cls _ => cls.any p
  | .text _ => false

/-- Case-insensitive substring test (`re.search` of a literal with
`re.IGNORECASE`). -/
def containsSubCI (needle hay : List Char) : Bool :=
  containsSub (needle.map Char.toLower) (hay.map Char.toLower)

/-- `re.search(r'Draw No\.?\s*(\d+)', s, re.IGNORECASE)`: the captured
number, if the pattern occurs. -/
def matchDrawNoAt (str : List Char) : Option ℕ :=
  if "draw no".data.isPrefixOf (str.map Char.toLower) then
    let rest := str.drop 7
    let rest1 := match rest with
      | '.' :: t => t
      | _ => rest
    let ds := (rest1.dropWhile (fun c => c.isWhitespace)).takeWhile (fun c => c.isDigit)
    if ds.isEmpty then none else some (digitsToNat ds)
  else none

def drawNoSearch : List Char → Option ℕ
  | [] => none
  | c :: rest =>
    match matchDrawNoAt (c :: rest) with
    | some n => some n
    | none => drawNoSearch rest

/-- The result-page date pattern `\d{1,2}\s+[A-Za-z]+\s+\d{4}` matched at
the head of `s`, returning the matched text. -/
def datePatternAt (str : List Char) : Option (List Char) :=
  let withD : ℕ → Option (List Char) := fun k =>
    match takeExactDigits k str with
    | none => none
    | some (_, rest) =>
      let ws1 := rest.takeWhile (fun c => c.isWhitespace)
      if ws1.isEmpty then none
      else
        let rest1 := rest.dropWhile (fun c => c.isWhitespace)
        let alphas := rest1.takeWhile (fun c => c.isAlpha)
        if alphas.isEmpty then none
        else
          let rest2 := rest1.dropWhile (fun c => c.isAlpha)
          let ws2 := rest2.takeWhile (fun c => c.isWhitespace)
          if ws2.isEmpty then none
          else
            match takeExactDigits 4 (rest2.dropWhile (fun c => c.isWhitespace)) with
            | some (_, _) =>
              some (str.take (k + ws1.length + alphas.length + ws2.length + 4))
            | none => none
  match withD 2 with
  | some m => some m
  | none => withD 1

def datePatternSearch : List Char → Option (List Char)
  | [] => none
  | c :: rest =>
    match datePatternAt (c :: rest) with
    | some m => some m
    | none => datePatternSearch rest

/-- `re.search(r'Group\s*(\d)', s, re.IGNORECASE)`: the captured digit. -/
def groupNumAt (str : List Char) : Option ℕ :=
  if "group".data.isPrefixOf (str.map Char.toLower) then
    match (str.drop 5).dropWhile (fun c => c.isWhitespace) with
    | d :: _ => if d.isDigit then some (d.toNat - 48) else none
    | [] => none
  else none

def groupNumSearch : List Char → Option ℕ
  | [] => none
  | c :: rest =>
    match groupNumAt (c :: rest) with
    | some n => some n
    | none => groupNumSearch rest

/-- `re.search(r'Group\s*1', s, re.IGNORECASE)`. -/
def groupOneAt (str : List Char) : Bool :=
  if "group".data.isPrefixOf (str.map Char.toLower) then
    match (str.drop 5).dropWhile (fun c => c.isWhitespace) with
    | d :: _ => d = '1'
    | [] => false
  else false

def groupOneSearch : List Char → Bool
  | [] => false
  | c :: rest => groupOneAt (c :: rest) || groupOneSearch rest

/-- `re.search(r'\d+', s)`: the first digit run's value. -/
def digitRunSearch : List Char → Option ℕ
  | [] => none
  | c :: rest =>
    if c.isDigit then some (digitsToNat ((c :: rest).takeWhile (fun d => d.isDigit)))
    else digitRunSearch rest

/-- `float(text)` for the `[\d,]+\.?\d*` capture with commas removed. -/
def parseFloatCapture (cap : List Char) : Option ℚ :=
  let noCommas := cap.filter (fun c => c ≠ ',')
  let intPart := noCommas.takeWhile (fun c => c.isDigit)
  if intPart.isEmpty then none
  else
    let fracPart := ((noCommas.dropWhile (fun c => c.isDigit)).drop 1).takeWhile
      (fun c => c.isDigit)
    some ((digitsToNat intPart : ℚ)
      + (digitsToNat fracPart : ℚ) / ((10 : ℚ) ^ fracPart.length))

/-- `re.search(r'\$\s*([\d,]+\.?\d*)', s)` composed with
`float(...replace(',', ''))`. -/
def dollarAt (str : List Char) : Option ℚ :=
  match str with
  | '$' :: rest =>
    let rest1 := rest.dropWhile (fun c => c.isWhitespace)
    let digitsCommas := rest1.takeWhile (fun c => c.isDigit || c = ',')
    if digitsCommas.isEmpty then none
    else
      let rest2 := rest1.dropWhile (fun c => c.isDigit || c = ',')
      let cap := match rest2 with
        | '.' :: t => digitsCommas ++ '.' :: t.takeWhile (fun c => c.isDigit)
        | _ => digitsCommas
      parseFloatCapture cap
  | _ => none

def dollarSearch : List Char → Option ℚ
  | [] => none
  | c :: rest =>
    match dollarAt (c :: rest) with
    | some v => some v
    | none => dollarSearch rest

/-- `re.search(r'(\d+)[^\d]*winners', s, re.IGNORECASE)`: the captured
digit run. -/
def winnersPatternSearch : List Char → Option ℕ
  | [] => none
  | c :: rest =>
    if c.isDigit then
      let ds := (c :: rest).takeWhile (fun d => d.isDigit)
      let after := ((c :: rest).dropWhile (fun d => d.isDigit)).takeWhile
        (fun d => !d.isDigit)
      if containsSubCI "winners".data after then some (digitsToNat ds)
      else winnersPatternSearch rest
    else winnersPatternSearch rest

/-! ### Field extraction, shared by the query-string path and the general
fallback path of `scrape_toto_results` -/

def docTexts (doc : HtmlDoc) : List (List Char) := nodeStringsList doc

def allTables (doc : HtmlDoc) : List HtmlNode :=
  findElemsList (tagIs "table".data) doc

/-- The first "Draw No" match over the page's string nodes. -/
def extractDrawNumberTexts : List (List Char) → Option ℕ
  | [] => none
  | t :: rest =>
    match drawNoSearch t with
    | some n => some n
    | none => extractDrawNumberTexts rest

def extractDrawNumber (doc : HtmlDoc) : Option ℕ :=
  extractDrawNumberTexts (docTexts doc)

/-- The general path's draw-date scan: the first string node matching the
date pattern, not part of a CDATA script block, whose matched text parses
under `%d %B %Y` or `%d %b %Y`. -/
def extractDrawDateTexts : List (List Char) → Option PyDate
  | [] => none
  | t :: rest =>
    match datePatternSearch t with
    | none => extractDrawDateTexts rest
    | some m =>
      if containsSub "CDATA".data t then extractDrawDateTexts rest
      else
        match strptime .dFullY m with
        | some dt => some dt
        | none =>
          match strptime .dAbbrevY m with
          | some dt => some dt
          | none => extractDrawDateTexts rest

def extractDrawDate (doc : HtmlDoc) : Option PyDate :=
  extractDrawDateTexts (docTexts doc)

/-- The `td`/`th` cells below a table element. -/
def tableCells (table : HtmlNode) : List HtmlNode :=
  match table with
  | .elem _ _ children => findElemsList (tagIn ["td".data, "th".data]) children
  | .text _ => []

/-- Numeric cell values in the TOTO range 1..49, in cell order. -/
def inRangeCellNumbers (table : HtmlNode) : List ℕ :=
  (tableCells table).filterMap (fun cell =>
    let t := getText cell
    if pyIsDigit t then
      let v := digitsToNat t
      if 1 ≤ v ∧ v ≤ 49 then some v else none
    else none)

/-- The table enclosing the first text node satisfying `pred` (the
`while parent and parent.name != 'table'` walk). -/
def textTableAncestor (pred : List Char → Bool) (doc : HtmlDoc) : Option HtmlNode :=
  match findTextAncList pred [] doc with
  | some anc => anc.find? (tagIs "table".data)
  | none => none

/-- Approach: cells of the table next to a "Winning Numbers" label. -/
def wnHeaderNumbers (doc : HtmlDoc) : List ℕ :=
  match textTableAncestor (fun t => containsSubCI "winning numbers".data t) doc with
  | some tbl => inRangeCellNumbers tbl
  | none => []

/-- Approach: scan all tables for one with 6 or 7 in-range numbers. -/
def tableScan67 : List HtmlNode → Option (List ℕ × Option ℕ)
  | [] => none
  | t :: rest =>
    let nums := inRangeCellNumbers t
    if 6 ≤ nums.length ∧ nums.length ≤ 7 then
      if nums.length = 7 then some (nums.take 6, (nums.drop 6).head?)
      else some (nums, none)
    else tableScan67 rest

/-- The first in-range cell of the table next to an "Additional Number"
label. -/
def addHeaderNumber (doc : HtmlDoc) : Option ℕ :=
  match textTableAncestor (fun t => containsSubCI "additional number".data t) doc with
  | some tbl => (inRangeCellNumbers tbl).head?
  | none => none

def divSpanTexts (doc : HtmlDoc) : List (List Char) :=
  (findElemsList (tagIn ["div".data, "span".data]) doc).map getText

/-- The general path's last-resort scan over `div`/`span` texts: collect
in-range numbers; on reaching six with no additional number yet, peek at the
next element for the additional number and stop. -/
def divSpanScan (add : Option ℕ) (acc : List ℕ) : List (List Char) → List ℕ × Option ℕ
  | [] => (acc, add)
  | t :: rest =>
    if pyIsDigit t ∧ 1 ≤ digitsToNat t ∧ digitsToNat t ≤ 49 then
      let acc1 := acc ++ [digitsToNat t]
      if acc1.length = 6 ∧ add.isNone then
        let add1 := match rest with
          | t2 :: _ =>
            if pyIsDigit t2 ∧ 1 ≤ digitsToNat t2 ∧ digitsToNat t2 ≤ 49 then
              some (digitsToNat t2)
            else none
          | [] => none
        (acc1, add1)
      else divSpanScan add acc1 rest
    else divSpanScan add acc rest

/-- The general path's winning-numbers cascade (approaches at lines 629-696),
returning the collected numbers and the additional number. -/
def generalWinning (doc : HtmlDoc) : List ℕ × Option ℕ :=
  let w1 := wnHeaderNumbers doc
  let (w2, a2) :=
    if w1.isEmpty then
      match tableScan67 (allTables doc) with
      | some (w, a) => (w, a)
      | none => (w1, none)
    else (w1, none)
  let a3 := if a2.isNone then addHeaderNumber doc else a2
  if w2.isEmpty then divSpanScan a3 [] (divSpanTexts doc) else (w2, a3)

/-! ### Prize-table extraction (runs after the completeness gate) -/

/-- A cell value of the prize dictionary: the initial zeros and winner counts
are ints, prize amounts are floats. -/
inductive PVal where
  | intV (n : ℕ)
  | floatV (q : ℚ)
deriving DecidableEq

abbrev PrizeData := List (List Char × PVal)

def setPD (pd : PrizeData) (k : List Char) (v : PVal) : PrizeData :=
  match pd with
  | [] => [(k, v)]
  | (k', v') :: t => if k' = k then (k, v) :: t else (k', v') :: setPD t k v

def groupKey (n : ℕ) (suffix : List Char) : List Char :=
  "group_".data ++ natDigits n ++ suffix

def initPrizeData : PrizeData :=
  [(groupKey 1 "_winners".data, .intV 0), (groupKey 1 "_prize".data, .intV 0),
   (groupKey 2 "_winners".data, .intV 0), (groupKey 2 "_prize".data, .intV 0),
   (groupKey 3 "_winners".data, .intV 0), (groupKey 3 "_prize".data, .intV 0),
   (groupKey 4 "_winners".data, .intV 0), (groupKey 4 "_prize".data, .intV 0),
   (groupKey 5 "_winners".data, .intV 0), (groupKey 5 "_prize".data, .intV 0),
   (groupKey 6 "_winners".data, .intV 0), (groupKey 6 "_prize".data, .intV 0),
   (groupKey 7 "_winners".data, .intV 0), (groupKey 7 "_prize".data, .intV 0)]

def tableRows (table : HtmlNode) : List HtmlNode :=
  match table with
  | .elem _ _ children => findElemsList (tagIs "tr".data) children
  | .text _ => []

def rowCellTexts (tr : HtmlNode) : List (List Char) :=
  match tr with
  | .elem _ _ children =>
    (findElemsList (tagIn ["td".data, "th".data]) children).map getText
  | .text _ => []

/-- The grid `pd.read_html` would produce from a table, as cell texts. -/
def tableGrid (table : HtmlNode) : List (List (List Char)) :=
  (tableRows table).map rowCellTexts

/-- One prize-table row: find `Group N`, then the last `$`-amount and the
last bare-integer cell; `useWP` enables the general path's extra
`N winners` pattern. -/
def processPrizeRow (useWP : Bool) (pd : PrizeData) (cells : List (List Char)) :
    PrizeData :=
  match cells.foldl (fun acc c =>
      match acc with
      | some g => some g
      | none => groupNumSearch c) none with
  | none => pd
  | some 0 => pd
  | some g =>
    let prize := cells.foldl (fun acc c =>
      if containsSub ['$'] c then
        match dollarSearch c with
        | some v => some v
        | none => acc
      else acc) (none : Option ℚ)
    let winners := cells.foldl (fun acc c =>
      if pyIsDigit c then some (digitsToNat c) else acc) (none : Option ℕ)
    let winners :=
      if useWP ∧ winners.isNone then
        cells.foldl (fun acc c =>
          match winnersPatternSearch c with
          | some v => some v
          | none => acc) (none : Option ℕ)
      else winners
    let pd1 := match prize with
      | some v => setPD pd (groupKey g "_prize".data) (.floatV v)
      | none => pd
    match winners with
    | some w => setPD pd1 (groupKey g "_winners".data) (.intV w)
    | none => pd1

def processPrizeTable (useWP : Bool) (pd : PrizeData)
    (grid : List (List (List Char))) : PrizeData :=
  if grid.any (fun row => row.any (fun c => containsSubCI "group".data c)) then
    grid.foldl (processPrizeRow useWP) pd
  else pd

def extractPrizeData (useWP : Bool) (tables : List HtmlNode) : PrizeData :=
  tables.foldl (fun pd t => processPrizeTable useWP pd (tableGrid t)) initPrizeData

def pvalIsZero : PVal → Bool
  | .intV n => n = 0
  | .floatV q => q = 0

/-- The general path's last prize step: if every `_prize` entry is still
zero, read the row holding the literal "Group 1" cell positionally. -/
def group1Direct (doc : HtmlDoc) (pd : PrizeData) : PrizeData :=
  if pd.all (fun kv =>
      !("_prize".data.isSuffixOf kv.1) || pvalIsZero kv.2) then
    match findTextAncList (fun t => groupOneSearch t) [] doc with
    | some anc =>
      match anc.find? (tagIs "tr".data) with
      | some tr =>
        (rowCellTexts tr).foldl (fun pd c =>
          if containsSub ['$'] c then
            match dollarSearch c with
            | some v => setPD pd (groupKey 1 "_prize".data) (.floatV v)
            | none => pd
          else if pyIsDigit c then
            setPD pd (groupKey 1 "_winners".data) (.intV (digitsToNat c))
          else pd) pd
      | none => pd
    | none => pd
  else pd

/-- One scraped draw result (a row of the returned DataFrame). -/
structure ScrapedRecord where
  draw_date : List Char
  draw_number : ℕ
  winning_numbers : List ℕ
  additional_number : Option ℕ
  prize_data : PrizeData
deriving DecidableEq

/-- The general fallback path (lines 577-826): extraction from the results
page fetched without a query string; `none` is the empty DataFrame. -/
def scrape_general (doc : HtmlDoc) : Option ScrapedRecord :=
  match extractDrawDate doc, extractDrawNumber doc with
  | some dd, some dn =>
    let wa := generalWinning doc
    if 6 ≤ wa.1.length then
      let wa2 :=
        if 6 < wa.1.length ∧ wa.2.isNone then (wa.1.take 6, (wa.1.drop 6).head?)
        else wa
      some ⟨formatYMD dd, dn, wa2.1, wa2.2,
        group1Direct doc (extractPrizeData true (allTables doc))⟩
    else none
  | _, _ => none

/-! ### The query-string path (lines 264-489) -/

/-- Class attribute matching `re.compile("(number|ball|toto-number)", I)`;
`toto-number` is subsumed by `number`. -/
def numberClassPred (c : List Char) : Bool :=
  containsSubCI "number".data c || containsSubCI "ball".data c

/-- In-range numbers from elements with a number-like class. -/
def classNumbers (doc : HtmlDoc) : List ℕ :=
  (findElemsList (classPred numberClassPred) doc).filterMap (fun n =>
    let t := getText n
    if pyIsDigit t then
      let v := digitsToNat t
      if 1 ≤ v ∧ v ≤ 49 then some v else none
    else none)

/-- The query path's winning-numbers approaches (lines 289-351). -/
def queryWinning (doc : HtmlDoc) : List ℕ × Option ℕ :=
  let w1 := wnHeaderNumbers doc
  let (w2, a2) :=
    if w1.length < 6 then
      let cand := classNumbers doc
      if 7 ≤ cand.length then (cand.take 6, (cand.drop 6).head?)
      else if cand.length = 6 then (cand, none)
      else (w1, (none : Option ℕ))
    else (w1, none)
  if w2.length < 6 then
    match tableScan67 (allTables doc) with
    | some (w, a) => (w, a)
    | none => (w2, a2)
  else (w2, a2)

/-- The query path's additional-number approaches (lines 353-400). -/
def queryAdditional (doc : HtmlDoc) (w : List ℕ) (a : Option ℕ) : Option ℕ :=
  let a1 := if a.isNone then addHeaderNumber doc else a
  let a2 :=
    if a1.isNone ∧ ¬ w.isEmpty ∧ 6 ≤ w.length then
      ((findElemsList (tagIn ["div".data, "span".data, "td".data]) doc).map getText).findSome?
        (fun t =>
          if pyIsDigit t then
            let v := digitsToNat t
            if 1 ≤ v ∧ v ≤ 49 ∧ v ∉ w then some v else none
          else none)
    else a1
  if a2.isNone then
    ((findElemsList (classPred (fun c => containsSubCI "additional".data c)) doc).map
        getText).findSome? (fun t =>
      match digitRunSearch t with
      | some v => if 1 ≤ v ∧ v ≤ 49 then some v else none
      | none => none)
  else a2

/-- `if draw_number and ...`: Python truthiness of the extracted number. -/
def drawNumTruthy : Option ℕ → Bool
  | some n => n ≠ 0
  | none => false

/-- Per-page extraction of the query-string path (lines 264-489): the date is
the loop's date key; `none` models "no result appended for this page". -/
def scrape_query_page (doc : HtmlDoc) (date : List Char) : Option ScrapedRecord :=
  let dn := extractDrawNumber doc
  let wa := queryWinning doc
  let add := queryAdditional doc wa.1 wa.2
  if drawNumTruthy dn && !wa.1.isEmpty && decide (6 ≤ wa.1.length) && add.isSome then
    some ⟨date, dn.getD 0,
      if 6 < wa.1.length then wa.1.take 6 else wa.1, add,
      extractPrizeData false (allTables doc)⟩
  else none

lemma extractDrawNumberTexts_none (texts : List (List Char))
    (h : ∀ t ∈ texts, drawNoSearch t = none) :
    extractDrawNumberTexts texts = none := by
  induction texts with
  | nil => rfl
  | cons t rest ih =>
    rw [extractDrawNumberTexts, h t (by simp)]
    exact ih (fun t' ht' => h t' (by simp [ht']))

/-- A page with no draw information at all. -/
def docPlain : HtmlDoc := [HtmlNode.elem "div".data [] [HtmlNode.text "hello world".data]]

end TotoAnalytics

open TotoAnalytics

/-- C1: for every draw record, the estimated prize pool is the arithmetic mean
of `prize_i * winners_i / allocation_i` over exactly the tiers `i ∈ 2..7` with
`winners_i > 0` (allocations 0.08, 0.05, 0.03, 0.04, 0.205, 0.205; tier 1 never
contributes), falling back to `2,000,000 * 1.00 * 0.54 = 1,080,000` when no
such tier exists; with only tier 2 populated (5 winners, prize 100000) the
estimate is `100000 * 5 / 0.08 = 6,250,000`. -/
theorem C1_estimated_prize_pool_is_tier_mean :
    (∀ r : DrawRow, estimated_prize_pool r = spec_estimated_prize_pool r) ∧
    estimated_prize_pool zeroRow = 1080000 ∧
    estimated_prize_pool tier2Row = 6250000 := by
  refine ⟨fun r => ?_, ?_, ?_⟩
  · have h := available_estimates_eq r
    by_cases hc : ([2,3,4,5,6,7].filter (fun i => decide (0 < groupWinners r i))) = []
    · have hspec : ¬ (contributingTiers r).Nonempty := by
        rw [contributingTiers, nonempty_filter_icc]
        simp [hc]
      rw [spec_estimated_prize_pool, if_neg hspec]
      rw [estimated_prize_pool]
      simp only [h, hc, List.map_nil, List.isEmpty_nil, if_true]
      norm_num [ORDINARY_ENTRY_PRICE, CONTRIBUTION_RATE]
    · have hspec : (contributingTiers r).Nonempty := by
        rw [contributingTiers, nonempty_filter_icc]
        exact hc
      rw [spec_estimated_prize_pool, if_pos hspec]
      rw [contributingTiers]
      simp only [show ∀ i, groupPrize r i * groupWinners r i / groupAllocation i
          = tierEstimate r i from fun i => rfl]
      rw [sum_filter_icc _ (tierEstimate r), card_filter_icc]
      simp only [estimated_prize_pool, h, List.length_map]
      rw [if_neg (by simp [List.isEmpty_iff, hc])]
  · have ha : available_estimates zeroRow = [] := by
      norm_num [available_estimates, est_prize_pool_g2, est_prize_pool_g3,
        est_prize_pool_g4, est_prize_pool_g5, est_prize_pool_g6, est_prize_pool_g7,
        zeroRow]
    simp only [estimated_prize_pool, ha, List.isEmpty_nil, if_true]
    norm_num [ORDINARY_ENTRY_PRICE, CONTRIBUTION_RATE]
  · have ha : available_estimates tier2Row = [6250000] := by
      norm_num [available_estimates, est_prize_pool_g2, est_prize_pool_g3,
        est_prize_pool_g4, est_prize_pool_g5, est_prize_pool_g6, est_prize_pool_g7,
        tier2Row, zeroRow, GROUP_2_ALLOCATION, List.filterMap_cons, List.filterMap_nil]
    simp only [estimated_prize_pool, ha]
    norm_num

/-- C4: the derived fields: `expected_group1_prize = pool * 0.38`,
`estimated_sales = pool / 0.54`, and the rollover equals the expected group-1
prize when tier 1 has no winners and `0` when it has a positive count. -/
theorem C4_derived_fields :
    ∀ r : DrawRow,
      expected_group1_prize r = estimated_prize_pool r * (38 / 100) ∧
      estimated_sales r = estimated_prize_pool r / (54 / 100) ∧
      (r.group_1_winners = 0 → rollover_amount r = expected_group1_prize r) ∧
      (0 < r.group_1_winners → rollover_amount r = 0) := by
  intro r
  refine ⟨rfl, rfl, fun h0 => ?_, fun hpos => ?_⟩
  · rw [rollover_amount, if_pos h0]
  · rw [rollover_amount, if_neg (ne_of_gt hpos)]

/-- Witness for C4 at concrete rows: a zero tier-1 count yields a rollover of
the expected group-1 prize (here 410400) and a positive count yields 0. -/
theorem C4_derived_fields_witness :
    rollover_amount zeroRow = expected_group1_prize zeroRow ∧
    rollover_amount oneWinnerRow = 0 :=
  ⟨(C4_derived_fields zeroRow).2.2.1 (by decide),
   (C4_derived_fields oneWinnerRow).2.2.2 (by decide)⟩


/-- C9 (counterexample): `calculate_prize_pools` does not leave every input
column unmodified — an input frame that already has a `total_winners` column
gets that column overwritten with the recomputed sum. -/
theorem C9_counterexample_total_winners_overwritten :
    List.lookup "total_winners" clashRow = some (Cell.num 999) ∧
    ((calculate_prize_pools [clashRow]).bind List.head?).bind
        (List.lookup "total_winners") = some (Cell.num 0) ∧
    Cell.num 999 ≠ Cell.num 0 := by
  refine ⟨by decide, ?_, by decide⟩
  have hr : readGroups clashRow = some zeroRow := by decide
  rw [calculate_prize_pools, calculate_prize_pools, processRow, hr]
  simp only [Option.bind_eq_bind, Option.some_bind, Option.pure_def, Option.bind_some,
    List.head?_cons]
  rw [lookup_setCell_ne _ _ _ _ (by decide), lookup_setCell_ne _ _ _ _ (by decide),
    lookup_setCell_ne _ _ _ _ (by decide), lookup_setCell_ne _ _ _ _ (by decide),
    lookup_setCell_self]
  norm_num [total_winners, zeroRow]

/-- C9 (amended): `calculate_prize_pools` is pure — it returns a new frame and,
except for the five derived column names (which are recomputed, overwriting a
pre-existing column of the same name), every input column appears in the
output row-by-row with its values unmodified. -/
theorem C9_input_columns_preserved :
    ∀ (df out : List Row), calculate_prize_pools df = some out →
      List.Forall₂ (fun rin rout => ∀ c, c ∉ derivedColumns →
        List.lookup c rout = List.lookup c rin) df out :=
  fun df out h => calculate_prize_pools_frame df out h

/-- Witness for C9 at a concrete frame: the `draw_number` column survives the
calculator unchanged. -/
theorem C9_input_columns_preserved_witness :
    calculate_prize_pools [witRow] = some [witRowOut] ∧
    List.lookup "draw_number" witRowOut = List.lookup "draw_number" witRow := by
  have hr : readGroups witRow = some zeroRow := by decide
  have h1 : total_winners zeroRow = 0 := by norm_num [total_winners, zeroRow]
  have h2 : estimated_prize_pool zeroRow = 1080000 := by
    have ha : available_estimates zeroRow = [] := by
      norm_num [available_estimates, est_prize_pool_g2, est_prize_pool_g3,
        est_prize_pool_g4, est_prize_pool_g5, est_prize_pool_g6, est_prize_pool_g7,
        zeroRow]
    simp only [estimated_prize_pool, ha, List.isEmpty_nil, if_true]
    norm_num [ORDINARY_ENTRY_PRICE, CONTRIBUTION_RATE]
  have h3 : expected_group1_prize zeroRow = 410400 := by
    rw [expected_group1_prize, h2]
    norm_num [GROUP_1_ALLOCATION]
  have h4 : estimated_sales zeroRow = 2000000 := by
    rw [estimated_sales, h2]
    norm_num [CONTRIBUTION_RATE]
  have h5 : rollover_amount zeroRow = 410400 := by
    rw [rollover_amount, if_pos (by norm_num [zeroRow])]
    exact h3
  have h : calculate_prize_pools [witRow] = some [witRowOut] := by
    rw [calculate_prize_pools, calculate_prize_pools, processRow, hr]
    simp only [Option.bind_eq_bind, Option.some_bind, Option.pure_def, Option.bind_some]
    rw [h1, h2, h3, h4, h5]
    decide
  refine ⟨h, ?_⟩
  have hf := C9_input_columns_preserved [witRow] [witRowOut] h
  exact (List.forall₂_cons.mp hf).1 "draw_number" (by decide)

/-- C6: after any sequence of update runs starting from an empty store, the
persisted `draw_number` values are pairwise distinct, and the record stored
under a draw number is the last-seen record bearing it across all runs
(upsert, not append). -/
theorem C6_draw_numbers_unique_last_wins :
    ∀ runs : List (List DbRecord),
      ((applyRuns runs).map (fun x => x.draw_number)).Nodup ∧
      ∀ n : ℤ, getRecord (applyRuns runs) n = lastRecord runs.flatten n := by
  intro runs
  constructor
  · exact nodup_runsFold runs [] (by simp)
  · intro n
    rw [applyRuns, getRecord_runsFold]
    cases lastRecord runs.flatten n with
    | some x => rfl
    | none => rfl

/-- C10: saving `None` or an empty frame returns `False` and writes nothing. -/
theorem C10_save_empty_returns_false :
    ∀ s : Store,
      save_database none s = (false, s) ∧
      save_database (some []) s = (false, s) := by
  intro s
  exact ⟨rfl, rfl⟩

/-- C2 (counterexample): a locator with an unrecoverable draw number is not
always included — `id=abc` has no recoverable number, yet with
`existing = {101, 102}` the reconciler excludes it (the missing list is
empty). -/
theorem C2_counterexample_nonnumeric_id_excluded :
    recoveredDrawNumber infoId = none ∧
    get_missing_query_strings [infoId] (some [101, 102]) = [] :=
  ⟨by decide, by decide⟩

/-- C2 (amended): a locator with no recoverable draw number is included
unconditionally, regardless of the existing set, unless its query string
contains an `id=` parameter whose value is not all digits; such a locator is
excluded (counted as filtered) whenever the filtering pass runs at all, i.e.
whenever there is existing data — with no existing draw numbers the early
return hands back the whole catalog, that locator included. -/
theorem C2_unrecoverable_locator_inclusion :
    (∀ (infos : List DrawInfo) (existing : List ℤ) (info : DrawInfo),
      info ∈ infos →
      info.draw_number = none →
      decodeSpplNumber info.query_string = none →
      containsSub "id=".data info.query_string = false →
      info.query_string ∈ get_missing_query_strings infos (some existing)) ∧
    (∀ (infos : List DrawInfo) (existing : List ℤ) (info : DrawInfo),
      info ∈ infos →
      (∀ j ∈ infos, j.query_string = info.query_string → j = info) →
      existing ≠ [] →
      info.draw_number = none →
      decodeSpplNumber info.query_string = none →
      containsSub "id=".data info.query_string = true →
      extractIdParam info.query_string = none →
      info.query_string ∉ get_missing_query_strings infos (some existing)) := by
  constructor
  · intro infos existing info hmem hdn hdec hcont
    have hinfos : infos ≠ [] := by rintro rfl; simp at hmem
    by_cases hcol : existing = []
    · subst hcol
      rw [get_missing_query_strings, if_neg (by simpa [List.isEmpty_iff] using hinfos)]
      dsimp only
      rw [if_pos (by simp)]
      exact List.mem_map.mpr ⟨info, hmem, rfl⟩
    · rw [mem_missing_iff infos existing _ hinfos hcol]
      exact ⟨info, hmem, rfl, includeInfo_unrecoverable infos existing info hdn hdec hcont⟩
  · intro infos existing info hmem huniq hcol hdn hdec hcont hid hqmem
    have hinfos : infos ≠ [] := by rintro rfl; simp at hmem
    rw [mem_missing_iff infos existing _ hinfos hcol] at hqmem
    obtain ⟨j, hj, hjq, hjinc⟩ := hqmem
    have hji : j = info := huniq j hj hjq
    subst hji
    rw [includeInfo_false_of_id_unrecoverable infos existing j hdn hdec hcont hid] at hjinc
    cases hjinc

/-- Witness for C2 (amended): a bare locator is included even though the
existing set is nonempty, and the `id=abc` locator is excluded from a
two-entry catalog. -/
theorem C2_unrecoverable_locator_inclusion_witness :
    "foo".data ∈ get_missing_query_strings [infoFoo] (some [101, 102]) ∧
    "id=abc".data ∉ get_missing_query_strings [infoId, infoFoo] (some [101]) := by
  constructor
  · exact C2_unrecoverable_locator_inclusion.1 [infoFoo] [101, 102] infoFoo
      (by decide) (by decide) (by decide) (by decide)
  · exact C2_unrecoverable_locator_inclusion.2 [infoId, infoFoo] [101] infoId
      (by decide) (by decide) (by decide) (by decide) (by decide) (by decide) (by decide)

/-- C3: a locator whose draw number is recoverable (decoded token, attached
number, or numeric `id=` parameter) is excluded when that number is in the
existing set and included when it is absent. -/
theorem C3_recoverable_locator_filtering :
    ∀ (infos : List DrawInfo) (existing : List ℤ) (info : DrawInfo) (n : ℤ),
      info ∈ infos →
      (∀ j ∈ infos, j.query_string = info.query_string → j = info) →
      recoveredDrawNumber info = some n →
      ((n ∈ existing → info.query_string ∉ get_missing_query_strings infos (some existing)) ∧
       (n ∉ existing → info.query_string ∈ get_missing_query_strings infos (some existing))) := by
  intro infos existing info n hmem huniq hrec
  have hinfos : infos ≠ [] := by rintro rfl; simp at hmem
  constructor
  · intro hn hqmem
    have hcol : existing ≠ [] := by rintro rfl; simp at hn
    rw [mem_missing_iff infos existing _ hinfos hcol] at hqmem
    obtain ⟨j, hj, hjq, hjinc⟩ := hqmem
    have hji : j = info := huniq j hj hjq
    subst hji
    rw [includeInfo_eq_of_recovered infos existing j n hj hrec] at hjinc
    simp only [decide_eq_true_eq] at hjinc
    exact hjinc hn
  · intro hn
    by_cases hcol : existing = []
    · subst hcol
      rw [get_missing_query_strings, if_neg (by simpa [List.isEmpty_iff] using hinfos)]
      dsimp only
      rw [if_pos (by simp)]
      exact List.mem_map.mpr ⟨info, hmem, rfl⟩
    · rw [mem_missing_iff infos existing _ hinfos hcol]
      refine ⟨info, hmem, rfl, ?_⟩
      rw [includeInfo_eq_of_recovered infos existing info n hmem hrec]
      simpa using hn

/-- Witness for C3: with `existing = {101}`, the locator decoding to 101 is
excluded and the locator decoding to 103 is included. -/
theorem C3_recoverable_locator_filtering_witness :
    "sppl=aWQ9MTAx".data ∉ get_missing_query_strings [info101, info103] (some [101]) ∧
    "sppl=aWQ9MTAz".data ∈ get_missing_query_strings [info101, info103] (some [101]) := by
  constructor
  · exact (C3_recoverable_locator_filtering [info101, info103] [101] info101 101
      (by decide) (by decide) (by decide)).1 (by decide)
  · exact (C3_recoverable_locator_filtering [info101, info103] [101] info103 103
      (by decide) (by decide) (by decide)).2 (by decide)

/-- C8: with no persisted data (`None` or an empty frame) the reconciler
returns the whole catalog, in order; with an empty catalog it returns the
empty list. -/
theorem C8_degenerate_inputs :
    ∀ (infos : List DrawInfo) (cd : Option (List ℤ)),
      get_missing_query_strings infos none = infos.map (fun i => i.query_string) ∧
      get_missing_query_strings infos (some []) = infos.map (fun i => i.query_string) ∧
      get_missing_query_strings [] cd = [] := by
  intro infos cd
  refine ⟨?_, ?_, ?_⟩
  · cases infos with
    | nil => rfl
    | cons i rest => rw [get_missing_query_strings, if_neg (by simp)]
  · cases infos with
    | nil => rfl
    | cons i rest =>
      rw [get_missing_query_strings, if_neg (by simp)]
      dsimp only
      rw [if_pos (by simp)]
  · cases cd <;> rfl

/-- C7: an unreachable archive page (a non-200 status or an exception during
the fetch/parse) yields an empty catalog rather than an error, and an
individual entry that fails to parse — a JSON entry or a dropdown option —
is skipped without affecting the rest of the call. -/
theorem C7_catalog_unreachable_empty_and_bad_entries_skipped :
    get_available_draw_dates none = [] ∧
    (∀ r : FetchResponse, r.status ≠ 200 → get_available_draw_dates (some r) = []) ∧
    (∀ (e : JsonEntry) (entries : List JsonEntry),
      (∀ ds qs, e.drawDate = some ds → e.queryString = some qs →
        tryFormats jsonFormats ds = none) →
      get_available_draw_dates (some ⟨200, .jsonList (e :: entries)⟩)
        = get_available_draw_dates (some ⟨200, .jsonList entries⟩)) ∧
    (∀ (o : OptionEl) (opts : List OptionEl) (links : List LinkEl),
      (∀ qs, o.queryString = some qs → tryFormats selectFormats o.text = none) →
      get_available_draw_dates (some ⟨200, .html (some (o :: opts)) links⟩)
        = get_available_draw_dates (some ⟨200, .html (some opts) links⟩)) := by
  refine ⟨rfl, ?_, ?_, ?_⟩
  · intro r h
    rw [get_available_draw_dates]
    rw [if_neg h]
  · intro e entries hskip
    have hstep : jsonStep [] e = [] := by
      rw [jsonStep]
      cases hd : e.drawDate with
      | none => rfl
      | some ds =>
        cases hq : e.queryString with
        | none => rfl
        | some qs =>
          dsimp only
          rw [hskip ds qs hd hq]
    rw [get_available_draw_dates, get_available_draw_dates]
    rw [if_pos rfl, if_pos rfl]
    dsimp only
    rw [buildDictJson, List.foldl_cons, hstep]
    rfl
  · intro o opts links hskip
    have hstep : optionStep [] o = [] := by
      rw [optionStep]
      cases hq : o.queryString with
      | none => rfl
      | some qs =>
        dsimp only
        rw [hskip qs hq]
    rw [get_available_draw_dates, get_available_draw_dates]
    rw [if_pos rfl, if_pos rfl]
    dsimp only
    rw [buildDictOptions, List.foldl_cons, hstep]
    rfl

/-- Witness for C7: a 404 response yields the empty catalog; unparseable
entries in a JSON list or dropdown are skipped. -/
theorem C7_catalog_unreachable_witness :
    get_available_draw_dates (some ⟨404, .jsonOther⟩) = [] ∧
    get_available_draw_dates (some ⟨200, .jsonList [badEntry, goodEntry]⟩)
      = get_available_draw_dates (some ⟨200, .jsonList [goodEntry]⟩) ∧
    get_available_draw_dates (some ⟨200, .html (some [badOption]) []⟩)
      = get_available_draw_dates (some ⟨200, .html (some []) []⟩) := by
  refine ⟨?_, ?_, ?_⟩
  · exact C7_catalog_unreachable_empty_and_bad_entries_skipped.2.1 ⟨404, .jsonOther⟩
      (by decide)
  · exact C7_catalog_unreachable_empty_and_bad_entries_skipped.2.2.1 badEntry [goodEntry]
      (by intro ds qs hds hqs; cases hds; decide)
  · exact C7_catalog_unreachable_empty_and_bad_entries_skipped.2.2.2 badOption [] []
      (by intro qs hqs; decide)

/-- C5: if the draw date or the draw number cannot be determined, or the
winning-number cascade recovers fewer than six numbers, extraction returns
the empty result and no partial record is produced — on the general path and
on the query-string path; in particular, markup without any "Draw No"
pattern always fails. -/
theorem C5_incomplete_extraction_drops_draw :
    (∀ doc : HtmlDoc,
      extractDrawDate doc = none ∨ extractDrawNumber doc = none →
      scrape_general doc = none) ∧
    (∀ doc : HtmlDoc, (generalWinning doc).1.length < 6 → scrape_general doc = none) ∧
    (∀ doc : HtmlDoc, (∀ t ∈ docTexts doc, drawNoSearch t = none) →
      scrape_general doc = none) ∧
    (∀ (doc : HtmlDoc) (date : List Char),
      extractDrawNumber doc = none ∨ (queryWinning doc).1.length < 6 →
      scrape_query_page doc date = none) := by
  have hgate : ∀ doc : HtmlDoc,
      extractDrawDate doc = none ∨ extractDrawNumber doc = none →
      scrape_general doc = none := by
    intro doc h
    cases hdd : extractDrawDate doc with
    | none =>
      cases hdn : extractDrawNumber doc with
      | none => simp only [scrape_general, hdd, hdn]
      | some dn => simp only [scrape_general, hdd, hdn]
    | some dd =>
      cases hdn : extractDrawNumber doc with
      | none => simp only [scrape_general, hdd, hdn]
      | some dn =>
        exfalso
        rcases h with h | h
        · rw [hdd] at h
          cases h
        · rw [hdn] at h
          cases h
  refine ⟨hgate, ?_, ?_, ?_⟩
  · intro doc h
    cases hdd : extractDrawDate doc with
    | none => exact hgate doc (Or.inl hdd)
    | some dd =>
      cases hdn : extractDrawNumber doc with
      | none => exact hgate doc (Or.inr hdn)
      | some dn =>
        rw [scrape_general, hdd, hdn]
        dsimp only
        rw [if_neg (by omega)]
  · intro doc h
    exact hgate doc (Or.inr (extractDrawNumberTexts_none (docTexts doc) h))
  · intro doc date h
    rcases h with h | h
    · rw [scrape_query_page, h]
      simp [drawNumTruthy]
    · have h6 : ¬ 6 ≤ (queryWinning doc).1.length := by omega
      rw [scrape_query_page]
      simp [h6]

/-- Witness for C5: a page holding only "hello world" fails on both paths. -/
theorem C5_incomplete_extraction_drops_draw_witness :
    scrape_general docPlain = none ∧
    scrape_query_page docPlain "2025-04-07".data = none := by
  constructor
  · exact C5_incomplete_extraction_drops_draw.2.2.1 docPlain (by decide)
  · exact C5_incomplete_extraction_drops_draw.2.2.2 docPlain "2025-04-07".data
      (Or.inl (by decide))
